import Mathlib

/-!
Verification development for the BizFlow WhatsApp booking bot
(`src/main.py`, class `WhatsAppBot`, and the `/webhook/whatsapp` handler).

The Python code is shallowly embedded: each method becomes an executable
Lean definition over `List Char` / `String`, the regular expressions used
by `WhatsAppBot.parse_booking` are embedded via a small backtracking
engine (`reMatches` / `reSearch`) that mirrors Python `re.search`
semantics (leftmost match, alternatives tried in written order, greedy
quantifiers with backtracking) for the constructs those five patterns
use, and the SQLAlchemy session is modelled by explicit state passing
(`Session`) with an explicit `commit` log.
-/

set_option maxRecDepth 8192
set_option maxHeartbeats 1600000

/-! ## Basic character classes (Python `\d`, `\s`, `[a-z]` over ASCII) -/

/-- Python `\s` over ASCII: space, tab, LF, VT, FF, CR.  This is also the
set of separators used by `str.split()` / `str.strip()` on such text. -/
def wsB (c : Char) : Bool := c.toNat == 32 || (9 ≤ c.toNat && c.toNat ≤ 13)

/-- Python `\d` over ASCII. -/
def digitB (c : Char) : Bool := 48 ≤ c.toNat && c.toNat ≤ 57

/-- Python `[a-z]`. -/
def lowerB (c : Char) : Bool := 97 ≤ c.toNat && c.toNat ≤ 122

/-- Python `[a-z\s]` (the name class in every booking pattern). -/
def nameClsB (c : Char) : Bool := lowerB c || wsB c

/-- Python character class slash-or-hyphen (the separator class in the
numeric date pattern). -/
def sepB (c : Char) : Bool := c == '/' || c == '-'

/-- ASCII `str.lower()` on one character. -/
def toLowerCh (c : Char) : Char :=
  if 65 ≤ c.toNat && c.toNat ≤ 90 then Char.ofNat (c.toNat + 32) else c

/-- ASCII `str.upper()` on one character. -/
def toUpperCh (c : Char) : Char :=
  if 97 ≤ c.toNat && c.toNat ≤ 122 then Char.ofNat (c.toNat - 32) else c

/-! ## List-level string helpers (`strip`, `split`, `title`, `zfill`, …) -/

/-- Drop a trailing run of whitespace (the right half of `str.strip()`). -/
def dropTrail (l : List Char) : List Char := (l.reverse.dropWhile wsB).reverse

/-- Python `str.strip()`. -/
def stripL (l : List Char) : List Char := dropTrail (l.dropWhile wsB)

/-- Python `str.lower()`. -/
def toLowerL (l : List Char) : List Char := l.map toLowerCh

/-- Python `str.title()` restricted to the `[a-z\s]` texts produced by the
name capture group: a letter is uppercased exactly when the previous
character is not a letter.  The boolean argument records whether the
previous character was a letter. -/
def titleAux : List Char → Bool → List Char
  | [], _ => []
  | c :: rest, prev =>
    if lowerB c then (if prev then c else toUpperCh c) :: titleAux rest true
    else c :: titleAux rest false

/-- Python `str.title()` (see `titleAux`). -/
def titleL (l : List Char) : List Char := titleAux l false

/-- Python `int()` on a (non-empty) digit string. -/
def digitsToNat (l : List Char) : Nat := l.foldl (fun n c => n * 10 + (c.toNat - 48)) 0

/-- Decimal digits, least significant last, accumulated from the right;
the first argument is fuel (structural recursion keeps the definition
kernel-reducible). -/
def natDigitsAux : Nat → Nat → List Char → List Char
  | 0, _, acc => acc
  | fuel + 1, n, acc =>
    if n < 10 then Char.ofNat (48 + n) :: acc
    else natDigitsAux fuel (n / 10) (Char.ofNat (48 + n % 10) :: acc)

/-- Decimal digits of a natural number (used for f-string rendering). -/
def natDigits (n : Nat) : List Char := natDigitsAux (n + 1) n []

/-- Python `f"{n}"`. -/
def natToStr (n : Nat) : String := String.mk (natDigits n)

/-- Python `f"{n:02d}"`. -/
def pad2 (n : Nat) : List Char := if n < 10 then '0' :: natDigits n else natDigits n

/-- Python `str.zfill(2)`. -/
def zfill2 (l : List Char) : List Char :=
  if l.length = 0 then ['0', '0'] else if l.length = 1 then '0' :: l else l

/-- Boolean prefix test on character lists. -/
def prefixOfL : List Char → List Char → Bool
  | [], _ => true
  | _ :: _, [] => false
  | a :: as, b :: bs => a == b && prefixOfL as bs

/-- Python `needle in hay` substring test. -/
def containsL (needle : List Char) : List Char → Bool
  | [] => prefixOfL needle []
  | c :: rest => prefixOfL needle (c :: rest) || containsL needle rest

/-- Length of the maximal prefix whose characters satisfy `p`. -/
def countWhile (p : Char → Bool) : List Char → Nat
  | [] => 0
  | c :: rest => if p c then countWhile p rest + 1 else 0

/-- Number of whitespace-separated tokens (the length of `str.split()`),
computed left to right; the boolean records whether we are currently
inside a token. -/
def tokensAux : List Char → Bool → Nat
  | [], _ => 0
  | c :: rest, inTok =>
    if wsB c then tokensAux rest false
    else (if inTok then 0 else 1) + tokensAux rest true

/-- Number of whitespace-separated tokens of a character list. -/
def tokens (l : List Char) : Nat := tokensAux l false

/-- Concatenation of the images of `f` (used by the regex engine so that
its behaviour does not depend on library `bind`/`flatMap` naming). -/
def flatMapL (f : α → List β) : List α → List β
  | [] => []
  | x :: xs => f x ++ flatMapL f xs

/-! ## Regular-expression engine

Only the constructs appearing in the five `parse_booking` patterns are
embedded.  `reMatches r s c` returns, in Python's backtracking preference
order, every pair (remaining suffix, captures) reachable by matching `r`
against a prefix of `s`; `reSearch` mirrors `re.search`: positions are
tried left to right and the first (most preferred) match wins. -/

inductive RE where
  | cls (p : Char → Bool)
  | lit (l : List Char)
  | cat (a b : RE)
  | alt (a b : RE)
  | opt (a : RE)
  | rep1 (p : Char → Bool)
  | reps (p : Char → Bool)
  | bnd (p : Char → Bool) (lo hi : Nat)
  | grp (n : Nat) (a : RE)

/-- Captured groups, most recent first. -/
def Caps := List (Nat × List Char)

/-- Look up group `n` (Python `match.group(n)`, `none` when the group did
not participate in the match). -/
def getCap (n : Nat) : Caps → Option (List Char)
  | [] => none
  | (m, v) :: rest => if m = n then some v else getCap n rest

/-- All ways to match `r` against a prefix of `s`, in Python preference
order (greedy quantifiers longest first, alternatives in written order). -/
def reMatches : RE → List Char → Caps → List (List Char × Caps)
  | .cls p, s, c =>
    match s with
    | [] => []
    | ch :: rest => if p ch then [(rest, c)] else []
  | .lit l, s, c => if prefixOfL l s then [(s.drop l.length, c)] else []
  | .cat a b, s, c => flatMapL (fun sc => reMatches b sc.1 sc.2) (reMatches a s c)
  | .alt a b, s, c => reMatches a s c ++ reMatches b s c
  | .opt a, s, c => reMatches a s c ++ [(s, c)]
  | .rep1 p, s, c =>
    let k := countWhile p s
    (List.range k).map (fun i => (s.drop (k - i), c))
  | .reps p, s, c =>
    let k := countWhile p s
    (List.range (k + 1)).map (fun i => (s.drop (k - i), c))
  | .bnd p lo hi, s, c =>
    let k := min (countWhile p s) hi
    if k < lo then []
    else (List.range (k - lo + 1)).map (fun i => (s.drop (k - i), c))
  | .grp n a, s, c =>
    (reMatches a s c).map (fun sc => (sc.1, (n, s.take (s.length - sc.1.length)) :: sc.2))

/-- Python `re.search`: try each start position left to right and return
the captures of the first match. -/
def reSearch (r : RE) (s : List Char) : Option Caps :=
  match reMatches r s [] with
  | sc :: _ => some sc.2
  | [] =>
    match s with
    | [] => none
    | _ :: rest => reSearch r rest

/-! ## The five `parse_booking` patterns (src/main.py lines 1035-1041) -/

/-- Shared tail `(\d{1,2})(?::(\d{2}))?\s*(am|pm)?\s+([a-z\s]+)` with the
hour/minute/meridiem/name group numbers of the surrounding pattern. -/
def tailRE (h m a n : Nat) : RE :=
  .cat (.grp h (.bnd digitB 1 2))
    (.cat (.opt (.cat (.lit [':']) (.grp m (.bnd digitB 2 2))))
      (.cat (.reps wsB)
        (.cat (.opt (.grp a (.alt (.lit ['a', 'm']) (.lit ['p', 'm']))))
          (.cat (.rep1 wsB) (.grp n (.rep1 nameClsB))))))

/-- Pattern 1: `(\d{1,2})`, a slash-or-hyphen separator, `(\d{1,2})\s+`,
followed by the time/name tail. -/
def pat1 : RE :=
  .cat (.grp 1 (.bnd digitB 1 2))
    (.cat (.cls sepB)
      (.cat (.grp 2 (.bnd digitB 1 2))
        (.cat (.rep1 wsB) (tailRE 3 4 5 6))))

/-- The month-abbreviation alternation of pattern 2. -/
def monthAltRE : RE :=
  .alt (.lit ['j', 'a', 'n']) (.alt (.lit ['f', 'e', 'b']) (.alt (.lit ['m', 'a', 'r'])
    (.alt (.lit ['a', 'p', 'r']) (.alt (.lit ['m', 'a', 'y']) (.alt (.lit ['j', 'u', 'n'])
      (.alt (.lit ['j', 'u', 'l']) (.alt (.lit ['a', 'u', 'g']) (.alt (.lit ['s', 'e', 'p'])
        (.alt (.lit ['o', 'c', 't']) (.alt (.lit ['n', 'o', 'v']) (.lit ['d', 'e', 'c'])))))))))))

/-- Pattern 2: `(\d{1,2})\s+(jan|...|dec)\s+` followed by the tail. -/
def pat2 : RE :=
  .cat (.grp 1 (.bnd digitB 1 2))
    (.cat (.rep1 wsB)
      (.cat (.grp 2 monthAltRE)
        (.cat (.rep1 wsB) (tailRE 3 4 5 6))))

/-- Pattern 3: `tomorrow\s+` followed by the tail (groups 1-4). -/
def pat3 : RE :=
  .cat (.lit ['t', 'o', 'm', 'o', 'r', 'r', 'o', 'w']) (.cat (.rep1 wsB) (tailRE 1 2 3 4))

/-- Pattern 4: `today\s+` followed by the tail (groups 1-4). -/
def pat4 : RE :=
  .cat (.lit ['t', 'o', 'd', 'a', 'y']) (.cat (.rep1 wsB) (tailRE 1 2 3 4))

/-- The weekday alternation of pattern 5. -/
def weekdayAltRE : RE :=
  .alt (.lit "monday".data) (.alt (.lit "tuesday".data) (.alt (.lit "wednesday".data)
    (.alt (.lit "thursday".data) (.alt (.lit "friday".data)
      (.alt (.lit "saturday".data) (.lit "sunday".data))))))

/-- Pattern 5: `next\s+(monday|...|sunday)\s+` followed by the tail (groups 1-5). -/
def pat5 : RE :=
  .cat (.lit ['n', 'e', 'x', 't'])
    (.cat (.rep1 wsB)
      (.cat (.grp 1 weekdayAltRE)
        (.cat (.rep1 wsB) (tailRE 2 3 4 5))))

/-! ## Calendar arithmetic (Python `datetime` / `timedelta`, proleptic Gregorian) -/

structure Date where
  year : Nat
  month : Nat
  day : Nat
deriving Repr, DecidableEq

def isLeap (y : Nat) : Bool := (y % 4 == 0 && y % 100 != 0) || y % 400 == 0

def daysInMonth (y m : Nat) : Nat :=
  if m = 2 then (if isLeap y then 29 else 28)
  else if m = 4 || m = 6 || m = 9 || m = 11 then 30 else 31

/-- The day after `d`. -/
def nextDay (d : Date) : Date :=
  if d.day < daysInMonth d.year d.month then { d with day := d.day + 1 }
  else if d.month < 12 then { year := d.year, month := d.month + 1, day := 1 }
  else { year := d.year + 1, month := 1, day := 1 }

/-- Python `d + timedelta(days=n)` for `n ≥ 0`. -/
def addDays (d : Date) : Nat → Date
  | 0 => d
  | n + 1 => nextDay (addDays d n)

/-- Days before January 1 of year `y` in the proleptic Gregorian calendar
(matching CPython's `datetime.toordinal`). -/
def daysBeforeYear (y : Nat) : Nat :=
  let p := y - 1
  p * 365 + p / 4 - p / 100 + p / 400

def daysBeforeMonth (y m : Nat) : Nat :=
  (List.range (m - 1)).foldl (fun acc i => acc + daysInMonth y (i + 1)) 0

/-- CPython `date.toordinal()`: `0001-01-01` is day 1. -/
def toOrdinal (d : Date) : Nat := daysBeforeYear d.year + daysBeforeMonth d.year d.month + d.day

/-- CPython `date.weekday()`: 0 = Monday (`date(1,1,1).weekday() == 0`). -/
def weekdayOf (d : Date) : Nat := (toOrdinal d + 6) % 7

/-- Python `strftime('%d-%m-%Y')` (years here are four-digit). -/
def fmtDate (d : Date) : String :=
  String.mk (pad2 d.day) ++ "-" ++ String.mk (pad2 d.month) ++ "-" ++ natToStr d.year

/-! ## `WhatsAppBot.parse_booking` and `_month_to_number` -/

structure BookingData where
  date : String
  time : String
  name : String
deriving Repr, DecidableEq

/-- Embeds `WhatsAppBot._month_to_number` (src/main.py lines 1090-1098): a fixed
table over the 12 three-letter abbreviations of `month[:3].lower()`, with
default `'01'` for anything else. -/
def monthToNumber (month : List Char) : String :=
  let k := String.mk (toLowerL (month.take 3))
  if k = "jan" then "01" else if k = "feb" then "02" else if k = "mar" then "03"
  else if k = "apr" then "04" else if k = "may" then "05" else if k = "jun" then "06"
  else if k = "jul" then "07" else if k = "aug" then "08" else if k = "sep" then "09"
  else if k = "oct" then "10" else if k = "nov" then "11" else if k = "dec" then "12"
  else "01"

/-- Time rendering of `parse_booking`: `hour = int(hour)`, add 12 for `pm`
hours below 12, map `12am` to 0, then `f"{hour:02d}:{minute or '00'}"`. -/
def fmtTime (hourS : List Char) (minuteS : Option (List Char)) (ampm : Option (List Char)) : String :=
  let hour := digitsToNat hourS
  let hour :=
    if ampm = some ['p', 'm'] && hour < 12 then hour + 12
    else if ampm = some ['a', 'm'] && hour = 12 then 0
    else hour
  String.mk (pad2 hour) ++ ":" ++ String.mk (minuteS.getD ['0', '0'])

/-- Name rendering of `parse_booking`: `name.strip().title()`. -/
def fmtName (nameS : List Char) : String := String.mk (titleL (stripL nameS))

/-- The `len(groups) == 6` branch of `parse_booking` (patterns 1 and 2):
`date = f"{day.zfill(2)}-{month_num}-{datetime.now().year}"`. -/
def fullDateResult (now : Date) (c : Caps) : Option BookingData :=
  match getCap 1 c, getCap 2 c, getCap 3 c, getCap 6 c with
  | some day, some month, some hour, some name =>
    some { date := String.mk (zfill2 day) ++ "-" ++ monthToNumber month ++ "-" ++ natToStr now.year
           time := fmtTime hour (getCap 4 c) (getCap 5 c)
           name := fmtName name }
  | _, _, _, _ => none

/-- The `len(groups) == 4` branch (patterns 3 and 4): the date is today
plus one day iff the substring `'tomorrow'` occurs in the whole text. -/
def relDateResult (t : List Char) (now : Date) (c : Caps) : Option BookingData :=
  match getCap 1 c, getCap 4 c with
  | some hour, some name =>
    some { date := fmtDate (addDays now (if containsL "tomorrow".data t then 1 else 0))
           time := fmtTime hour (getCap 2 c) (getCap 3 c)
           name := fmtName name }
  | _, _ => none

/-- The weekday list of the `len(groups) == 5` branch, and `days.index`. -/
def weekdayIdx (w : List Char) : Nat :=
  (["monday", "tuesday", "wednesday", "thursday", "friday", "saturday", "sunday"].map
    String.data).findIdx (fun d => d == w)

/-- The `len(groups) == 5` branch (pattern 5): next occurrence of the
named weekday, strictly in the future (`days_ahead += 7` when `≤ 0`). -/
def weekdayResult (now : Date) (c : Caps) : Option BookingData :=
  match getCap 1 c, getCap 2 c, getCap 5 c with
  | some wday, some hour, some name =>
    let ahead : Int := (weekdayIdx wday : Int) - (weekdayOf now : Int)
    let ahead := if ahead ≤ 0 then ahead + 7 else ahead
    some { date := fmtDate (addDays now ahead.toNat)
           time := fmtTime hour (getCap 3 c) (getCap 4 c)
           name := fmtName name }
  | _, _, _ => none

/-- Embeds `WhatsAppBot.parse_booking` (src/main.py lines 1028-1088): lowercase
and strip the text, try the five patterns in order with `re.search`, and
build the result dict from the first match; any failure yields `None`.
The current clock is passed explicitly as `now`. -/
def parse_booking (now : Date) (text : String) : Option BookingData :=
  let t := stripL (toLowerL text.data)
  match reSearch pat1 t with
  | some c => fullDateResult now c
  | none =>
    match reSearch pat2 t with
    | some c => fullDateResult now c
    | none =>
      match reSearch pat3 t with
      | some c => relDateResult t now c
      | none =>
        match reSearch pat4 t with
        | some c => relDateResult t now c
        | none =>
          match reSearch pat5 t with
          | some c => weekdayResult now c
          | none => none


/-! ## Data model (src/models.py) and session

`Business` carries the fields the bot reads or writes; `flow_state` and
the address are nullable columns, so they are `Option`s (Python treats
both `None` and `""` as falsy where `or` defaults are applied).
`Session` models the SQLAlchemy session: the in-memory business object,
the committed booking table, bookings added but not yet committed, and a
log of commit snapshots (business object and booking table at each
`db.commit()`). -/

structure Business where
  id : Nat
  name : String
  business_type : String
  whatsapp_number : String
  admin_email : String
  address : Option String
  plan : String
  is_active : Bool
  chat_used : Nat
  chat_limit : Nat
  flow_state : Option String
deriving Repr, DecidableEq

structure Booking where
  business_id : Nat
  name : String
  phone : String
  booking_date : String
  booking_time : String
  status : String
deriving Repr, DecidableEq

structure Session where
  biz : Business
  dbBookings : List Booking
  pendingAdds : List Booking
  commits : List (Business × List Booking)
deriving Repr, DecidableEq

/-- Models `db.add(booking)`: stage a row for insertion. -/
def Session.addB (s : Session) (b : Booking) : Session :=
  { s with pendingAdds := s.pendingAdds ++ [b] }

/-- Models `db.commit()`: flush staged rows and make the business object's
current field values durable, recording one snapshot. -/
def Session.commitB (s : Session) : Session :=
  let db := s.dbBookings ++ s.pendingAdds
  { biz := s.biz, dbBookings := db, pendingAdds := [],
    commits := s.commits ++ [(s.biz, db)] }

/-- Mutation `business.flow_state = st`. -/
def Session.setState (s : Session) (st : String) : Session :=
  { s with biz := { s.biz with flow_state := some st } }

/-- Mutation `business.chat_used = (business.chat_used or 0) + 1` (for the
non-null `Nat` field this is `chat_used + 1`). -/
def Session.bumpChat (s : Session) : Session :=
  { s with biz := { s.biz with chat_used := s.biz.chat_used + 1 } }

/-! ## String-level helpers used by the handlers -/

def stripS (s : String) : String := String.mk (stripL s.data)

def toLowerStr (s : String) : String := String.mk (toLowerL s.data)

def toUpperStr (s : String) : String := String.mk (s.data.map toUpperCh)

/-! ## `WhatsAppBot.get_industry_menu` (src/main.py lines 947-1027) -/

def menuRestaurant : String := "\n👋 Welcome to *{name}* 🍽️\n\n1️⃣ Book a Table\n2️⃣ View Menu\n3️⃣ Location & Hours\n4️⃣ Special Offers\n5️⃣ Contact Us\n6️⃣ Exit\n\nReply with number 👇\n"

def menuClinic : String := "\n👋 Welcome to *{name}* 🏥\n\n1️⃣ Book Appointment\n2️⃣ Doctor Availability\n3️⃣ Fees & Insurance\n4️⃣ Location\n5️⃣ Emergency Contact\n6️⃣ Exit\n\nReply with number 👇\n"

def menuSalon : String := "\n👋 Welcome to *{name}* 💇\n\n1️⃣ Book Appointment\n2️⃣ Services & Prices\n3️⃣ Our Stylists\n4️⃣ Location\n5️⃣ Special Offers\n6️⃣ Exit\n\nReply with number 👇\n"

def menuGym : String := "\n👋 Welcome to *{name}* 💪\n\n1️⃣ Book Session\n2️⃣ Membership Plans\n3️⃣ Class Schedule\n4️⃣ Trainer Info\n5️⃣ Location\n6️⃣ Exit\n\nReply with number 👇\n"

def menuRealestate : String := "\n👋 Welcome to *{name}* 🏠\n\n1️⃣ Schedule Visit\n2️⃣ Property Listings\n3️⃣ EMI Calculator\n4️⃣ Contact Agent\n5️⃣ Location\n6️⃣ Exit\n\nReply with number 👇\n"

def menuDefault : String := "\n👋 Welcome to *{name}* 🚀\n\n1️⃣ Book Appointment\n2️⃣ Our Services\n3️⃣ Location\n4️⃣ Contact Us\n5️⃣ Pricing\n6️⃣ Exit\n\nReply with number 👇\n"

/-- Python `template.format(name=...)` for templates whose only
placeholder is the name field: every occurrence of the six-character
placeholder is replaced. -/
def replaceNameL (nm : List Char) : List Char → List Char
  | '\x7b' :: 'n' :: 'a' :: 'm' :: 'e' :: '\x7d' :: rest => nm ++ replaceNameL nm rest
  | c :: rest => c :: replaceNameL nm rest
  | [] => []

/-- Embeds the lookup `menus.get(industry, default)` keyed on `business_type.lower()`, then
`menu.format(name=business.name)`. -/
def get_industry_menu (b : Business) : String :=
  let industry := toLowerStr b.business_type
  let menu :=
    if industry = "restaurant" then menuRestaurant
    else if industry = "clinic" then menuClinic
    else if industry = "salon" then menuSalon
    else if industry = "gym" then menuGym
    else if industry = "realestate" then menuRealestate
    else menuDefault
  String.mk (replaceNameL b.name.data menu.data)

/-! ## Fixed reply texts (src/main.py lines 1125-1285) -/

def bookingPrompt : String := "📅 Please provide booking details:\n\nExamples:\n• 15 Mar 3PM John Doe\n• 15/03 15:30 John Doe\n• tomorrow 4PM John Doe\n• next Monday 10AM Jane Smith\n\nType 'cancel' to go back"

def invalidOptionMsg : String := "❌ Invalid option. Please reply with a number (1-6)."

def exitMsg : String := "👋 Thank you for visiting! Type 'hi' to start again."

def parseFailMsg : String := "❌ Could not understand. Please use format:\n• 15 Mar 3PM John Doe\n• 15/03 15:30 John Doe\n• tomorrow 4PM John Doe\n• next Monday 10AM Jane Smith\n\nType 'cancel' to go back"

def alreadyBookedMsg (bd : BookingData) : String :=
  "\n❌ Sorry, " ++ bd.time ++ " on " ++ bd.date ++ " is already booked.\n\nPlease choose another time.\n"

def confirmMsg (bd : BookingData) : String :=
  "\n✅ Booking Confirmed!\n\n👤 " ++ bd.name ++ "\n📅 " ++ bd.date ++ "\n⏰ " ++ bd.time ++ "\n\nWe'll send you a reminder before your appointment.\n\nType 'menu' for main menu 👋\n"

def servicesRestaurant : String := "🍽️ Our Services:\n• Dine-in\n• Takeaway\n• Delivery\n• Private Events\n• Catering"

def servicesSalon : String := "💇 Our Services:\n• Haircut & Styling\n• Coloring\n• Facial\n• Manicure/Pedicure\n• Massage"

def servicesGym : String := "💪 Our Services:\n• Personal Training\n• Group Classes\n• Yoga\n• CrossFit\n• Nutrition Counseling"

def servicesClinic : String := "🏥 Our Services:\n• General Consultation\n• Specialist Visit\n• Health Checkup\n• Vaccination\n• Lab Tests"

/-- Embeds `WhatsAppBot._get_services`. -/
def get_services (b : Business) : String :=
  let k := toLowerStr b.business_type
  if k = "restaurant" then servicesRestaurant
  else if k = "salon" then servicesSalon
  else if k = "gym" then servicesGym
  else if k = "clinic" then servicesClinic
  else "📋 Check our website for complete services."

/-- Embeds `WhatsAppBot._get_location` (`business.address or "Main Location"`;
Python `or` also replaces the empty string). -/
def get_location (b : Business) : String :=
  let addr := match b.address with
    | none => "Main Location"
    | some a => if a = "" then "Main Location" else a
  "\n📍 " ++ addr ++ "\n\n🕒 Business Hours:\nMonday - Friday: 9AM - 8PM\nSaturday: 10AM - 6PM\nSunday: Closed\n"

/-- Embeds `WhatsAppBot._get_contact`. -/
def get_contact (b : Business) : String :=
  "\n📞 Contact Us:\nPhone: " ++ b.whatsapp_number ++ "\nEmail: " ++ b.admin_email ++ "\n\nFor urgent inquiries, please call during business hours.\n"

/-- Embeds `WhatsAppBot._get_pricing`. -/
def get_pricing : String :=
  "\n💰 Pricing:\n\nBasic consultation: ₹500\nPremium services: Starting at ₹1000\n\nCheck our website for detailed pricing and packages.\n"

/-! ## The state machine (src/main.py lines 1100-1222) -/

def resetWords : List String := ["reset", "restart", "help", "menu"]

def cancelWords : List String := ["cancel", "back", "exit"]

/-- The double-booking query of `_handle_booking` (src/main.py lines
1183-1188): a pending or confirmed booking of the same business with the
same date and time. -/
def dupCheck (s : Session) (bd : BookingData) : Bool :=
  s.dbBookings.any (fun b =>
    b.business_id == s.biz.id && b.booking_date == bd.date && b.booking_time == bd.time &&
      (b.status == "pending" || b.status == "confirmed"))

/-- Embeds `WhatsAppBot._handle_menu` (src/main.py lines 1124-1162), acting on
the already-stripped message. -/
def handle_menu (message : String) (s : Session) : String × Session :=
  if message = "1" then
    (bookingPrompt, (s.setState "booking").commitB)
  else if message = "2" then (get_services s.biz, s)
  else if message = "3" then (get_location s.biz, s)
  else if message = "4" then (get_contact s.biz, s)
  else if message = "5" then (get_pricing, s)
  else if message = "6" then (exitMsg, (s.setState "start").commitB)
  else (invalidOptionMsg, s)

/-- Embeds `WhatsAppBot._handle_booking` (src/main.py lines 1164-1222), acting on
the already-stripped message; `now` is the clock read by `parse_booking`. -/
def handle_booking (message phone : String) (now : Date) (s : Session) : String × Session :=
  if toLowerStr message ∈ cancelWords then
    let s' := (s.setState "menu").commitB
    ("❌ Booking cancelled.\n\n" ++ get_industry_menu s'.biz, s')
  else
    match parse_booking now message with
    | none => (parseFailMsg, s)
    | some bd =>
      if dupCheck s bd then (alreadyBookedMsg bd, s)
      else
        let row : Booking :=
          { business_id := s.biz.id, name := bd.name, phone := phone,
            booking_date := bd.date, booking_time := bd.time, status := "pending" }
        let s' := (((s.addB row).setState "menu").bumpChat).commitB
        (confirmMsg bd, s')

/-- Embeds `WhatsAppBot.process_message` (src/main.py lines 1100-1122). -/
def process_message (phone message : String) (now : Date) (s : Session) : String × Session :=
  let message := stripS message
  let lower_msg := toLowerStr message
  let state : String :=
    match s.biz.flow_state with
    | none => "start"
    | some st => if st = "" then "start" else st
  if lower_msg ∈ resetWords then
    let s' := (s.setState "menu").commitB
    (get_industry_menu s'.biz, s')
  else if state = "start" ∨ state = "menu" then handle_menu message s
  else if state = "booking" then handle_booking message phone now s
  else
    let s' := (s.setState "menu").commitB
    (get_industry_menu s'.biz, s')

/-! ## Webhook guard (src/main.py lines 1293-1313, business-found branch) -/

def inactiveMsg : String := "❌ This business account is currently inactive. Please contact support."

def limitMsg (b : Business) : String :=
  "❌ Monthly chat limit reached.\n\nYour plan: " ++ toUpperStr b.plan ++ "\nLimit: " ++ natToStr b.chat_limit ++ " chats/month\n\nPlease upgrade your plan to continue."

/-- The `whatsapp_webhook` logic after the business is found: inactive
accounts and tenants at or over the chat limit are answered with a fixed
reply before `process_message` runs. -/
def webhook_reply (phone message : String) (now : Date) (s : Session) : String × Session :=
  if !s.biz.is_active then (inactiveMsg, s)
  else if s.biz.chat_used ≥ s.biz.chat_limit then (limitMsg s.biz, s)
  else process_message phone message now s

/-- State of `tokensAux` after scanning `a` starting in state `t`. -/
def endState (a : List Char) (t : Bool) : Bool := a.foldl (fun _ c => !wsB c) t

/-! ## Spec-side definitions for the parse-failure-closure claim

These two definitions follow the words of the specification (not the
source): the spec claims the parser fails whenever the input has fewer
than three whitespace-separated tokens, or its first token is neither a
`DD/MM` pair nor `DD` followed by a three-letter month abbreviation. -/

/-- First whitespace-separated token of a character list. -/
def firstToken (l : List Char) : List Char :=
  (l.dropWhile wsB).takeWhile (fun c => !wsB c)

/-- Second whitespace-separated token. -/
def secondToken (l : List Char) : List Char :=
  firstToken ((l.dropWhile wsB).dropWhile (fun c => !wsB c))

/-- Following the spec's words: the token is `DD/MM` — numeric day and
numeric month separated by a slash or hyphen. -/
def specIsDDMMtok (tok : List Char) : Bool :=
  let d := tok.takeWhile digitB
  let rest := tok.drop d.length
  match rest with
  | sep :: ms =>
    sepB sep && decide (1 ≤ d.length) && decide (d.length ≤ 2) &&
      decide (1 ≤ ms.length) && decide (ms.length ≤ 2) && ms.all digitB
  | [] => false

/-- Following the spec's words: the month abbreviations. -/
def specMonthAbbrevs : List String :=
  ["jan", "feb", "mar", "apr", "may", "jun", "jul", "aug", "sep", "oct", "nov", "dec"]

/-- Following the spec's words: the condition under which the spec says
the parser must return the failure signal — fewer than three tokens, or
a first token that is neither a `DD/MM` pair nor a numeric `DD` followed
by a three-letter month abbreviation. -/
def specMustFail (text : String) : Bool :=
  let l := toLowerL text.data
  decide (tokens l < 3) ||
    !(specIsDDMMtok (firstToken l) ||
      (decide (1 ≤ (firstToken l).length) && (firstToken l).all digitB &&
        decide ((firstToken l).length ≤ 2) &&
        specMonthAbbrevs.any (fun m => m.data == secondToken l)))

/-! ## Concrete fixtures used by witnesses and counterexamples -/

/-- Sample tenant used by concrete witnesses and counterexamples. -/
def bizGym : Business :=
  { id := 7, name := "FitZone", business_type := "gym",
    whatsapp_number := "919876543210", admin_email := "owner@fitzone.example",
    address := some "12 MG Road", plan := "starter", is_active := true,
    chat_used := 3, chat_limit := 1000, flow_state := some "menu" }

/-- A pending booking occupying the example slot, for the C8 witness. -/
def bookingTaken : Booking :=
  { business_id := 7, name := "Asha", phone := "919111111111",
    booking_date := "15-01-2025", booking_time := "15:30", status := "pending" }

/-! ## Matcher soundness

`MatchShape r v` says `v` is a string the pattern `r` can consume;
`GroupShape r n v` says some group numbered `n` inside `r` can capture
`v`.  `reMatches_sound` shows every result of the engine consumes a
prefix of that shape and only records captures of that shape, and
`reSearch_sound` transports this to `re.search`. -/

def MatchShape : RE → List Char → Prop
  | .cls p, v => ∃ ch, v = [ch] ∧ p ch = true
  | .lit l, v => v = l
  | .cat a b, v => ∃ v1 v2, v = v1 ++ v2 ∧ MatchShape a v1 ∧ MatchShape b v2
  | .alt a b, v => MatchShape a v ∨ MatchShape b v
  | .opt a, v => MatchShape a v ∨ v = []
  | .rep1 p, v => v ≠ [] ∧ ∀ c ∈ v, p c = true
  | .reps p, v => ∀ c ∈ v, p c = true
  | .bnd p lo hi, v => lo ≤ v.length ∧ v.length ≤ hi ∧ ∀ c ∈ v, p c = true
  | .grp _ a, v => MatchShape a v

def GroupShape : RE → Nat → List Char → Prop
  | .cat a b, n, v => GroupShape a n v ∨ GroupShape b n v
  | .alt a b, n, v => GroupShape a n v ∨ GroupShape b n v
  | .opt a, n, v => GroupShape a n v
  | .grp m a, n, v => (m = n ∧ MatchShape a v) ∨ GroupShape a n v
  | _, _, _ => False

theorem mem_flatMapL {f : α → List β} {l : List α} {b : β} :
    b ∈ flatMapL f l ↔ ∃ a ∈ l, b ∈ f a := by
  induction l with
  | nil => simp [flatMapL]
  | cons x xs ih => simp [flatMapL, ih]

theorem countWhile_le_length (p : Char → Bool) (s : List Char) : countWhile p s ≤ s.length := by
  induction s with
  | nil => simp [countWhile]
  | cons c rest ih =>
    simp only [countWhile, List.length_cons]
    split <;> omega

theorem mem_take_countWhile {p : Char → Bool} {s : List Char} {j : Nat}
    (hj : j ≤ countWhile p s) : ∀ c ∈ s.take j, p c = true := by
  induction s generalizing j with
  | nil => simp
  | cons x rest ih =>
    cases j with
    | zero => simp
    | succ j =>
      simp only [countWhile] at hj
      split at hj
      · next hx =>
        intro c hc
        simp only [List.take_succ_cons, List.mem_cons] at hc
        rcases hc with rfl | hc
        · exact hx
        · exact ih (by omega) c hc
      · omega

theorem prefixOfL_eq_true {l s : List Char} (h : prefixOfL l s = true) :
    ∃ t, s = l ++ t := by
  induction l generalizing s with
  | nil => exact ⟨s, rfl⟩
  | cons a as ih =>
    cases s with
    | nil => simp [prefixOfL] at h
    | cons b bs =>
      simp only [prefixOfL, Bool.and_eq_true, beq_iff_eq] at h
      obtain ⟨rfl, h2⟩ := h
      obtain ⟨t, rfl⟩ := ih h2
      exact ⟨t, rfl⟩

theorem getCap_cons (n m : Nat) (v : List Char) (c : Caps) :
    getCap n ((m, v) :: c) = if m = n then some v else getCap n c := rfl

theorem reMatches_sound (r : RE) : ∀ (s : List Char) (c : Caps) (out : List Char × Caps),
    out ∈ reMatches r s c →
    (∃ v, s = v ++ out.1 ∧ MatchShape r v) ∧
    (∀ n x, getCap n out.2 = some x → getCap n c = some x ∨ GroupShape r n x) := by
  induction r with
  | cls p =>
    intro s c out h
    match s with
    | [] => simp [reMatches] at h
    | ch :: rest =>
      simp only [reMatches] at h
      split at h
      · next hp =>
        simp only [List.mem_singleton] at h
        subst h
        exact ⟨⟨[ch], rfl, ch, rfl, hp⟩, fun n x hx => Or.inl hx⟩
      · simp at h
  | lit l =>
    intro s c out h
    simp only [reMatches] at h
    split at h
    · next hp =>
      simp only [List.mem_singleton] at h
      subst h
      obtain ⟨t, rfl⟩ := prefixOfL_eq_true hp
      refine ⟨⟨l, ?_, rfl⟩, fun n x hx => Or.inl hx⟩
      simp
    · simp at h
  | cat a b iha ihb =>
    intro s c out h
    simp only [reMatches] at h
    rw [mem_flatMapL] at h
    obtain ⟨mid, hmid, hout⟩ := h
    obtain ⟨⟨v1, hs1, hm1⟩, hc1⟩ := iha s c mid hmid
    obtain ⟨⟨v2, hs2, hm2⟩, hc2⟩ := ihb mid.1 mid.2 out hout
    constructor
    · exact ⟨v1 ++ v2, by rw [hs1, hs2, List.append_assoc], v1, v2, rfl, hm1, hm2⟩
    · intro n x hx
      rcases hc2 n x hx with h2 | h2
      · rcases hc1 n x h2 with h1 | h1
        · exact Or.inl h1
        · exact Or.inr (Or.inl h1)
      · exact Or.inr (Or.inr h2)
  | alt a b iha ihb =>
    intro s c out h
    simp only [reMatches, List.mem_append] at h
    rcases h with h | h
    · obtain ⟨⟨v, hs, hm⟩, hc⟩ := iha s c out h
      exact ⟨⟨v, hs, Or.inl hm⟩, fun n x hx => (hc n x hx).imp id Or.inl⟩
    · obtain ⟨⟨v, hs, hm⟩, hc⟩ := ihb s c out h
      exact ⟨⟨v, hs, Or.inr hm⟩, fun n x hx => (hc n x hx).imp id Or.inr⟩
  | opt a iha =>
    intro s c out h
    simp only [reMatches, List.mem_append, List.mem_singleton] at h
    rcases h with h | rfl
    · obtain ⟨⟨v, hs, hm⟩, hc⟩ := iha s c out h
      exact ⟨⟨v, hs, Or.inl hm⟩, hc⟩
    · exact ⟨⟨[], rfl, Or.inr rfl⟩, fun n x hx => Or.inl hx⟩
  | rep1 p =>
    intro s c out h
    simp only [reMatches, List.mem_map, List.mem_range] at h
    obtain ⟨i, hi, hout⟩ := h
    subst hout
    have hk := countWhile_le_length p s
    refine ⟨⟨s.take (countWhile p s - i), ?_, ?_, ?_⟩, fun n x hx => Or.inl hx⟩
    · simp
    · have : 0 < countWhile p s - i := by omega
      have hlen : (s.take (countWhile p s - i)).length = countWhile p s - i := by
        rw [List.length_take]; omega
      intro hnil
      rw [hnil] at hlen
      simp only [List.length_nil] at hlen
      omega
    · exact mem_take_countWhile (by omega)
  | reps p =>
    intro s c out h
    simp only [reMatches, List.mem_map, List.mem_range] at h
    obtain ⟨i, hi, hout⟩ := h
    subst hout
    refine ⟨⟨s.take (countWhile p s - i), by simp, ?_⟩, fun n x hx => Or.inl hx⟩
    exact mem_take_countWhile (by omega)
  | bnd p lo hi =>
    intro s c out h
    simp only [reMatches] at h
    split at h
    · simp at h
    · next hk =>
      simp only [List.mem_map, List.mem_range] at h
      obtain ⟨i, hilt, hout⟩ := h
      subst hout
      have hle := countWhile_le_length p s
      have hmin1 : min (countWhile p s) hi ≤ countWhile p s := Nat.min_le_left _ _
      have hmin2 : min (countWhile p s) hi ≤ hi := Nat.min_le_right _ _
      have hlen : (s.take (min (countWhile p s) hi - i)).length = min (countWhile p s) hi - i := by
        rw [List.length_take]; omega
      refine ⟨⟨s.take (min (countWhile p s) hi - i), by simp, ?_, ?_, ?_⟩,
        fun n x hx => Or.inl hx⟩
      · omega
      · omega
      · exact mem_take_countWhile (by omega)
  | grp m a iha =>
    intro s c out h
    simp only [reMatches, List.mem_map] at h
    obtain ⟨sc, hsc, hout⟩ := h
    obtain ⟨⟨v, hs, hm⟩, hc⟩ := iha s c sc hsc
    subst hout
    have hvlen : s.length - sc.1.length = v.length := by
      rw [hs]; simp
    have htake : s.take (s.length - sc.1.length) = v := by
      rw [hvlen, hs, List.take_left]
    constructor
    · exact ⟨v, hs, hm⟩
    · intro n x hx
      rw [getCap_cons] at hx
      split at hx
      · next hmn =>
        injection hx with hx
        subst hx
        rw [htake]
        exact Or.inr (Or.inl ⟨hmn, hm⟩)
      · rcases hc n x hx with h1 | h1
        · exact Or.inl h1
        · exact Or.inr (Or.inr h1)

theorem reSearch_sound (r : RE) : ∀ (s : List Char) (c : Caps), reSearch r s = some c →
    (∃ pre m post, s = pre ++ m ++ post ∧ MatchShape r m) ∧
    (∀ n x, getCap n c = some x → GroupShape r n x) := by
  intro s
  induction s with
  | nil =>
    intro c h
    simp only [reSearch] at h
    split at h
    · next sc rest heq =>
      injection h with h
      subst h
      have hmem : sc ∈ reMatches r [] [] := by rw [heq]; exact List.mem_cons_self _ _
      obtain ⟨⟨v, hs, hm⟩, hc⟩ := reMatches_sound r [] [] sc hmem
      refine ⟨⟨[], v, sc.1, by simpa using hs, hm⟩, ?_⟩
      intro n x hx
      rcases hc n x hx with h1 | h1
      · simp [getCap] at h1
      · exact h1
    · cases h
  | cons ch rest ih =>
    intro c h
    rw [reSearch] at h
    split at h
    · next sc tl heq =>
      injection h with h
      subst h
      have hmem : sc ∈ reMatches r (ch :: rest) [] := by rw [heq]; exact List.mem_cons_self _ _
      obtain ⟨⟨v, hs, hm⟩, hc⟩ := reMatches_sound r (ch :: rest) [] sc hmem
      refine ⟨⟨[], v, sc.1, by simpa using hs, hm⟩, ?_⟩
      intro n x hx
      rcases hc n x hx with h1 | h1
      · simp [getCap] at h1
      · exact h1
    · obtain ⟨⟨pre, m, post, hsplit, hm⟩, hc⟩ := ih c h
      exact ⟨⟨ch :: pre, m, post, by rw [hsplit]; rfl, hm⟩, hc⟩

/-! ## Token counting lemmas

Any successful match of one of the five booking patterns forces the
(stripped) text to contain at least three whitespace-separated tokens:
each pattern has two mandatory whitespace runs with mandatory
non-whitespace material before and between them, and stripping
guarantees non-whitespace material at the very end. -/


theorem endState_nil (t : Bool) : endState [] t = t := rfl

theorem endState_cons (c : Char) (a : List Char) (t : Bool) :
    endState (c :: a) t = endState a (!wsB c) := rfl

theorem tokensAux_append (a b : List Char) (t : Bool) :
    tokensAux (a ++ b) t = tokensAux a t + tokensAux b (endState a t) := by
  induction a generalizing t with
  | nil => simp [tokensAux, endState_nil]
  | cons c rest ih =>
    cases hwc : wsB c with
    | true => simp [tokensAux, hwc, endState_cons, ih]
    | false =>
      simp only [List.cons_append, tokensAux, hwc, endState_cons, if_false,
        Bool.false_eq_true, Bool.not_false, List.append_eq, ih]
      omega

theorem tokensAux_pos {b : List Char} (h : ∃ c ∈ b, wsB c = false) :
    1 ≤ tokensAux b false := by
  induction b with
  | nil => simp at h
  | cons x rest ih =>
    obtain ⟨c, hc, hcw⟩ := h
    simp only [List.mem_cons] at hc
    cases hx : wsB x with
    | true =>
      simp only [tokensAux, hx, if_pos]
      rcases hc with rfl | hc
      · rw [hx] at hcw; cases hcw
      · exact ih ⟨c, hc, hcw⟩
    | false =>
      simp only [tokensAux, hx, Bool.false_eq_true, if_false]
      omega

theorem tokensAux_ws_head {w : Char} (b : List Char) (t : Bool) (hw : wsB w = true) :
    tokensAux (w :: b) t = tokensAux b false := by
  simp [tokensAux, hw]

theorem tokens_ge_three_of (s X Y Z : List Char) (w1 w2 : Char)
    (hs : s = X ++ w1 :: (Y ++ w2 :: Z))
    (hw1 : wsB w1 = true) (hw2 : wsB w2 = true)
    (hX : ∃ c ∈ X, wsB c = false) (hY : ∃ c ∈ Y, wsB c = false)
    (hZ : ∃ c ∈ Z, wsB c = false) : 3 ≤ tokens s := by
  have h1 := tokensAux_pos hX
  have h2 := tokensAux_pos hY
  have h3 := tokensAux_pos hZ
  rw [tokens, hs, tokensAux_append, tokensAux_ws_head _ _ hw1, tokensAux_append,
    tokensAux_ws_head _ _ hw2]
  omega

/-- A non-empty suffix of a right-stripped string contains a
non-whitespace character (namely the last one). -/
theorem suffix_has_nonws (A : List Char) {s Z : List Char}
    (hstrip : ∀ c, s.getLast? = some c → wsB c = false)
    (hs : s = A ++ Z) (hZ : Z ≠ []) : ∃ c ∈ Z, wsB c = false := by
  rcases List.eq_nil_or_concat Z with rfl | ⟨zs, c, rfl⟩
  · exact absurd rfl hZ
  · refine ⟨c, by simp, hstrip c ?_⟩
    rw [hs]
    simp only [List.concat_eq_append, ← List.append_assoc]
    exact List.getLast?_concat _

theorem toNat_ofNat_valid {m : Nat} (h1 : 97 ≤ m) (h2 : m ≤ 122) :
    (Char.ofNat m).toNat = m := by
  interval_cases m <;> decide

theorem wsB_toLowerCh (c : Char) : wsB (toLowerCh c) = wsB c := by
  unfold toLowerCh
  split
  · next h =>
    simp only [Bool.and_eq_true, decide_eq_true_eq] at h
    have h1 : (Char.ofNat (c.toNat + 32)).toNat = c.toNat + 32 :=
      toNat_ofNat_valid (by omega) (by omega)
    have hl : wsB (Char.ofNat (c.toNat + 32)) = false := by
      simp only [wsB, h1, Bool.or_eq_false_iff, Bool.and_eq_false_iff,
        beq_eq_false_iff_ne, ne_eq, decide_eq_false_iff_not, not_le]
      omega
    have hr : wsB c = false := by
      simp only [wsB, Bool.or_eq_false_iff, Bool.and_eq_false_iff,
        beq_eq_false_iff_ne, ne_eq, decide_eq_false_iff_not, not_le]
      omega
    rw [hl, hr]
  · rfl

theorem tokensAux_map_lower (l : List Char) (t : Bool) :
    tokensAux (toLowerL l) t = tokensAux l t := by
  induction l generalizing t with
  | nil => rfl
  | cons c rest ih =>
    simp only [toLowerL, List.map_cons, tokensAux, wsB_toLowerCh]
    rw [show toLowerL rest = rest.map toLowerCh from rfl] at ih
    rw [ih, ih]

theorem tokensAux_dropWhile_ws (l : List Char) :
    tokensAux (l.dropWhile wsB) false = tokensAux l false := by
  induction l with
  | nil => rfl
  | cons c rest ih =>
    cases hwc : wsB c with
    | true => simp [List.dropWhile_cons, hwc, tokensAux, ih]
    | false => simp [List.dropWhile_cons, hwc]

theorem tokensAux_allws {w : List Char} (hw : ∀ c ∈ w, wsB c = true) (t : Bool) :
    tokensAux w t = 0 := by
  induction w generalizing t with
  | nil => rfl
  | cons c rest ih =>
    have hc := hw c (by simp)
    simp only [tokensAux, hc, if_pos]
    exact ih (fun x hx => hw x (by simp [hx])) false

/-- Decomposition produced by right-stripping. -/
theorem dropTrail_decomp (l : List Char) :
    ∃ w, l = dropTrail l ++ w ∧ ∀ c ∈ w, wsB c = true := by
  refine ⟨(l.reverse.takeWhile wsB).reverse, ?_, ?_⟩
  · conv_lhs => rw [← l.reverse_reverse, ← @List.takeWhile_append_dropWhile Char wsB l.reverse]
    rw [List.reverse_append]
    rfl
  · intro c hc
    rw [List.mem_reverse] at hc
    exact List.mem_takeWhile_imp hc

theorem tokens_dropTrail (l : List Char) : tokens (dropTrail l) = tokens l := by
  obtain ⟨w, hw, hws⟩ := dropTrail_decomp l
  conv_rhs => rw [hw]
  rw [tokens, tokens, tokensAux_append, tokensAux_allws hws]
  omega

/-- Token count is invariant under the parser's preprocessing. -/
theorem tokens_processed (l : List Char) : tokens (stripL (toLowerL l)) = tokens l := by
  rw [stripL, tokens_dropTrail, tokens, tokensAux_dropWhile_ws, tokensAux_map_lower]
  rfl

theorem head_dropWhile_not {p : Char → Bool} {l : List Char} {c : Char}
    (h : (l.dropWhile p).head? = some c) : p c = false := by
  induction l with
  | nil => simp [List.dropWhile] at h
  | cons x rest ih =>
    rw [List.dropWhile_cons] at h
    split at h
    · exact ih h
    · next hx =>
      simp only [List.head?_cons, Option.some_inj] at h
      subst h
      exact Bool.not_eq_true _ ▸ Bool.of_not_eq_true hx

/-- The parser's preprocessed text never ends in whitespace. -/
theorem stripL_last_nonws (l : List Char) :
    ∀ c, (stripL l).getLast? = some c → wsB c = false := by
  intro c hc
  rw [stripL, dropTrail, List.getLast?_reverse] at hc
  exact head_dropWhile_not hc

theorem digitB_nonws {c : Char} (h : digitB c = true) : wsB c = false := by
  simp only [digitB, Bool.and_eq_true, decide_eq_true_eq] at h
  simp only [wsB, Bool.or_eq_false_iff, Bool.and_eq_false_iff,
    beq_eq_false_iff_ne, ne_eq, decide_eq_false_iff_not, not_le]
  omega

theorem nonempty_all_head {p : Char → Bool} {v : List Char}
    (hne : v ≠ []) (hall : ∀ c ∈ v, p c = true) :
    ∃ w r, v = w :: r ∧ p w = true ∧ ∀ c ∈ r, p c = true := by
  cases v with
  | nil => exact absurd rfl hne
  | cons w r =>
    exact ⟨w, r, rfl, hall w (by simp), fun c hc => hall c (by simp [hc])⟩

/-- A match of pattern 1 anywhere in a right-stripped string forces at
least three whitespace-separated tokens. -/
theorem pat1_tokens {s pre mm post : List Char} (hm : MatchShape pat1 mm)
    (hs : s = pre ++ mm ++ post)
    (hstrip : ∀ c, s.getLast? = some c → wsB c = false) : 3 ≤ tokens s := by
  simp only [pat1, tailRE, MatchShape] at hm
  obtain ⟨v1, v2, hv12, ⟨h1lo, h1hi, h1all⟩, v3, v4, hv34, ⟨sepc, rfl, hsep⟩,
    v5, v6, hv56, ⟨h5lo, h5hi, h5all⟩, v7, v8, hv78, ⟨h7ne, h7all⟩,
    t1, t2, ht12, ⟨ht1lo, ht1hi, ht1all⟩, u1, u2, hu12, hopt1,
    x1, x2, hx12, hxws, y1, y2, hy12, hopt2,
    z1, z2, hz12, ⟨hz1ne, hz1all⟩, hz2ne, hz2all⟩ := hm
  obtain ⟨w1, r1, rfl, hw1, _⟩ := nonempty_all_head h7ne h7all
  obtain ⟨w2, r3, rfl, hw2, _⟩ := nonempty_all_head hz1ne hz1all
  have h1ne : v1 ≠ [] := by
    intro hnil
    rw [hnil] at h1lo
    simp at h1lo
  obtain ⟨d, dr, rfl, hd, _⟩ := nonempty_all_head h1ne h1all
  have ht1ne : t1 ≠ [] := by
    intro hnil
    rw [hnil] at ht1lo
    simp at ht1lo
  obtain ⟨e, er, rfl, he, _⟩ := nonempty_all_head ht1ne ht1all
  apply tokens_ge_three_of s (pre ++ (d :: dr) ++ [sepc] ++ v5)
    (r1 ++ (e :: er) ++ u1 ++ x1 ++ y1) (r3 ++ (z2 ++ post)) w1 w2
  · subst hv12 hv34 hv56 hv78 ht12 hu12 hx12 hy12 hz12 hs
    simp [List.append_assoc]
  · exact hw1
  · exact hw2
  · exact ⟨d, by simp, digitB_nonws hd⟩
  · exact ⟨e, by simp, digitB_nonws he⟩
  · apply suffix_has_nonws
      (pre ++ (d :: dr) ++ [sepc] ++ v5 ++
        w1 :: (r1 ++ (e :: er) ++ u1 ++ x1 ++ y1) ++ [w2]) hstrip
    · subst hv12 hv34 hv56 hv78 ht12 hu12 hx12 hy12 hz12 hs
      simp [List.append_assoc]
    · simp [hz2ne]

theorem lowerB_nonws {c : Char} (h : lowerB c = true) : wsB c = false := by
  simp only [lowerB, Bool.and_eq_true, decide_eq_true_eq] at h
  simp only [wsB, Bool.or_eq_false_iff, Bool.and_eq_false_iff,
    beq_eq_false_iff_ne, ne_eq, decide_eq_false_iff_not, not_le]
  omega

/-- A match of pattern 2 anywhere in a right-stripped string forces at
least three whitespace-separated tokens. -/
theorem pat2_tokens {s pre mm post : List Char} (hm : MatchShape pat2 mm)
    (hs : s = pre ++ mm ++ post)
    (hstrip : ∀ c, s.getLast? = some c → wsB c = false) : 3 ≤ tokens s := by
  simp only [pat2, monthAltRE, tailRE, MatchShape] at hm
  obtain ⟨v1, v2, hv12, ⟨h1lo, h1hi, h1all⟩, v3, v4, hv34, ⟨h3ne, h3all⟩,
    v5, v6, hv56, hmon, v7, v8, hv78, ⟨h7ne, h7all⟩,
    t1, t2, ht12, ⟨ht1lo, ht1hi, ht1all⟩, hrest⟩ := hm
  obtain ⟨w1, r1, rfl, hw1, _⟩ := nonempty_all_head h3ne h3all
  obtain ⟨w2, r2, rfl, hw2, _⟩ := nonempty_all_head h7ne h7all
  have h1ne : v1 ≠ [] := by
    intro hnil
    rw [hnil] at h1lo
    simp at h1lo
  obtain ⟨d, dr, rfl, hd, _⟩ := nonempty_all_head h1ne h1all
  have ht1ne : t1 ≠ [] := by
    intro hnil
    rw [hnil] at ht1lo
    simp at ht1lo
  have hmw : ∃ c ∈ v5, wsB c = false := by
    rcases hmon with rfl | rfl | rfl | rfl | rfl | rfl | rfl | rfl | rfl | rfl | rfl | rfl <;>
      exact ⟨_, List.mem_cons_self _ _, by decide⟩
  apply tokens_ge_three_of s (pre ++ (d :: dr)) (r1 ++ v5) (r2 ++ (t1 ++ t2 ++ post)) w1 w2
  · subst hv12 hv34 hv56 hv78 ht12 hs
    simp [List.append_assoc]
  · exact hw1
  · exact hw2
  · exact ⟨d, by simp, digitB_nonws hd⟩
  · obtain ⟨c, hc, hcw⟩ := hmw
    exact ⟨c, by simp [hc], hcw⟩
  · apply suffix_has_nonws (pre ++ (d :: dr) ++ w1 :: (r1 ++ v5) ++ [w2]) hstrip
    · subst hv12 hv34 hv56 hv78 ht12 hs
      simp [List.append_assoc]
    · simp [ht1ne]

/-- A match of pattern 3 anywhere in a right-stripped string forces at
least three whitespace-separated tokens. -/
theorem pat3_tokens {s pre mm post : List Char} (hm : MatchShape pat3 mm)
    (hs : s = pre ++ mm ++ post)
    (hstrip : ∀ c, s.getLast? = some c → wsB c = false) : 3 ≤ tokens s := by
  simp only [pat3, tailRE, MatchShape] at hm
  obtain ⟨v1, v2, hv12, hlit, v3, v4, hv34, ⟨h3ne, h3all⟩,
    t1, t2, ht12, ⟨ht1lo, ht1hi, ht1all⟩, u1, u2, hu12, hopt1,
    x1, x2, hx12, hxws, y1, y2, hy12, hopt2,
    z1, z2, hz12, ⟨hz1ne, hz1all⟩, hz2ne, hz2all⟩ := hm
  obtain ⟨w1, r1, rfl, hw1, _⟩ := nonempty_all_head h3ne h3all
  obtain ⟨w2, r3, rfl, hw2, _⟩ := nonempty_all_head hz1ne hz1all
  have ht1ne : t1 ≠ [] := by
    intro hnil
    rw [hnil] at ht1lo
    simp at ht1lo
  obtain ⟨e, er, rfl, he, _⟩ := nonempty_all_head ht1ne ht1all
  apply tokens_ge_three_of s (pre ++ v1)
    (r1 ++ (e :: er) ++ u1 ++ x1 ++ y1) (r3 ++ (z2 ++ post)) w1 w2
  · subst hlit hv12 hv34 ht12 hu12 hx12 hy12 hz12 hs
    simp [List.append_assoc]
  · exact hw1
  · exact hw2
  · subst hlit
    exact ⟨'t', by simp, by decide⟩
  · exact ⟨e, by simp, digitB_nonws he⟩
  · apply suffix_has_nonws
      (pre ++ v1 ++ w1 :: (r1 ++ (e :: er) ++ u1 ++ x1 ++ y1) ++ [w2]) hstrip
    · subst hlit hv12 hv34 ht12 hu12 hx12 hy12 hz12 hs
      simp [List.append_assoc]
    · simp [hz2ne]

/-- A match of pattern 4 anywhere in a right-stripped string forces at
least three whitespace-separated tokens. -/
theorem pat4_tokens {s pre mm post : List Char} (hm : MatchShape pat4 mm)
    (hs : s = pre ++ mm ++ post)
    (hstrip : ∀ c, s.getLast? = some c → wsB c = false) : 3 ≤ tokens s := by
  simp only [pat4, tailRE, MatchShape] at hm
  obtain ⟨v1, v2, hv12, hlit, v3, v4, hv34, ⟨h3ne, h3all⟩,
    t1, t2, ht12, ⟨ht1lo, ht1hi, ht1all⟩, u1, u2, hu12, hopt1,
    x1, x2, hx12, hxws, y1, y2, hy12, hopt2,
    z1, z2, hz12, ⟨hz1ne, hz1all⟩, hz2ne, hz2all⟩ := hm
  obtain ⟨w1, r1, rfl, hw1, _⟩ := nonempty_all_head h3ne h3all
  obtain ⟨w2, r3, rfl, hw2, _⟩ := nonempty_all_head hz1ne hz1all
  have ht1ne : t1 ≠ [] := by
    intro hnil
    rw [hnil] at ht1lo
    simp at ht1lo
  obtain ⟨e, er, rfl, he, _⟩ := nonempty_all_head ht1ne ht1all
  apply tokens_ge_three_of s (pre ++ v1)
    (r1 ++ (e :: er) ++ u1 ++ x1 ++ y1) (r3 ++ (z2 ++ post)) w1 w2
  · subst hlit hv12 hv34 ht12 hu12 hx12 hy12 hz12 hs
    simp [List.append_assoc]
  · exact hw1
  · exact hw2
  · subst hlit
    exact ⟨'t', by simp, by decide⟩
  · exact ⟨e, by simp, digitB_nonws he⟩
  · apply suffix_has_nonws
      (pre ++ v1 ++ w1 :: (r1 ++ (e :: er) ++ u1 ++ x1 ++ y1) ++ [w2]) hstrip
    · subst hlit hv12 hv34 ht12 hu12 hx12 hy12 hz12 hs
      simp [List.append_assoc]
    · simp [hz2ne]

/-- A match of pattern 5 anywhere in a right-stripped string forces at
least three whitespace-separated tokens. -/
theorem pat5_tokens {s pre mm post : List Char} (hm : MatchShape pat5 mm)
    (hs : s = pre ++ mm ++ post)
    (hstrip : ∀ c, s.getLast? = some c → wsB c = false) : 3 ≤ tokens s := by
  simp only [pat5, weekdayAltRE, tailRE, MatchShape] at hm
  obtain ⟨v1, v2, hv12, hlit, v3, v4, hv34, ⟨h3ne, h3all⟩,
    v5, v6, hv56, hwd, v7, v8, hv78, ⟨h7ne, h7all⟩,
    t1, t2, ht12, ⟨ht1lo, ht1hi, ht1all⟩, hrest⟩ := hm
  obtain ⟨w1, r1, rfl, hw1, _⟩ := nonempty_all_head h3ne h3all
  obtain ⟨w2, r2, rfl, hw2, _⟩ := nonempty_all_head h7ne h7all
  have ht1ne : t1 ≠ [] := by
    intro hnil
    rw [hnil] at ht1lo
    simp at ht1lo
  have hww : ∃ c ∈ v5, wsB c = false := by
    rcases hwd with rfl | rfl | rfl | rfl | rfl | rfl | rfl <;>
      exact ⟨_, List.mem_cons_self _ _, by decide⟩
  apply tokens_ge_three_of s (pre ++ v1) (r1 ++ v5) (r2 ++ (t1 ++ t2 ++ post)) w1 w2
  · subst hlit hv12 hv34 hv56 hv78 ht12 hs
    simp [List.append_assoc]
  · exact hw1
  · exact hw2
  · subst hlit
    exact ⟨'n', by simp, by decide⟩
  · obtain ⟨c, hc, hcw⟩ := hww
    exact ⟨c, by simp [hc], hcw⟩
  · apply suffix_has_nonws (pre ++ v1 ++ w1 :: (r1 ++ v5) ++ [w2]) hstrip
    · subst hlit hv12 hv34 hv56 hv78 ht12 hs
      simp [List.append_assoc]
    · simp [ht1ne]


/-- C3 (counterexample): the spec's parse-failure-closure condition holds
for `"tomorrow 4pm john"` (its first token is neither a `DD/MM` pair nor
`DD` plus a month abbreviation), yet `parse_booking` succeeds on it via
the `tomorrow` grammar, so the claimed closure is false on the code. -/
theorem C3_counterexample :
    specMustFail "tomorrow 4pm john" = true ∧
      parse_booking ⟨2025, 3, 10⟩ "tomorrow 4pm john" ≠ none := by
  constructor
  · decide
  · decide

/-- C3: (amended) the parser is total — it returns a structured result or
`none`, never an exception — and on every input with fewer than three
whitespace-separated tokens it returns `none`.  (The spec's additional
first-token condition is refuted by `C3_counterexample`.) -/
theorem C3_few_tokens_fail (now : Date) (text : String)
    (h : tokens text.data < 3) : parse_booking now text = none := by
  have htok : tokens (stripL (toLowerL text.data)) = tokens text.data := tokens_processed _
  have hstrip := stripL_last_nonws (toLowerL text.data)
  have h1 : reSearch pat1 (stripL (toLowerL text.data)) = none := by
    cases hh : reSearch pat1 (stripL (toLowerL text.data)) with
    | none => rfl
    | some cp =>
      obtain ⟨⟨pre, m, post, hsp, hmm⟩, -⟩ := reSearch_sound pat1 _ cp hh
      have := pat1_tokens hmm hsp hstrip
      omega
  have h2 : reSearch pat2 (stripL (toLowerL text.data)) = none := by
    cases hh : reSearch pat2 (stripL (toLowerL text.data)) with
    | none => rfl
    | some cp =>
      obtain ⟨⟨pre, m, post, hsp, hmm⟩, -⟩ := reSearch_sound pat2 _ cp hh
      have := pat2_tokens hmm hsp hstrip
      omega
  have h3 : reSearch pat3 (stripL (toLowerL text.data)) = none := by
    cases hh : reSearch pat3 (stripL (toLowerL text.data)) with
    | none => rfl
    | some cp =>
      obtain ⟨⟨pre, m, post, hsp, hmm⟩, -⟩ := reSearch_sound pat3 _ cp hh
      have := pat3_tokens hmm hsp hstrip
      omega
  have h4 : reSearch pat4 (stripL (toLowerL text.data)) = none := by
    cases hh : reSearch pat4 (stripL (toLowerL text.data)) with
    | none => rfl
    | some cp =>
      obtain ⟨⟨pre, m, post, hsp, hmm⟩, -⟩ := reSearch_sound pat4 _ cp hh
      have := pat4_tokens hmm hsp hstrip
      omega
  have h5 : reSearch pat5 (stripL (toLowerL text.data)) = none := by
    cases hh : reSearch pat5 (stripL (toLowerL text.data)) with
    | none => rfl
    | some cp =>
      obtain ⟨⟨pre, m, post, hsp, hmm⟩, -⟩ := reSearch_sound pat5 _ cp hh
      have := pat5_tokens hmm hsp hstrip
      omega
  simp only [parse_booking, h1, h2, h3, h4, h5]

/-- C3 (witness): a one-token input is rejected, via `C3_few_tokens_fail`. -/
theorem C3_few_tokens_fail_witness :
    tokens "hello".data < 3 ∧ parse_booking ⟨2025, 3, 10⟩ "hello" = none :=
  ⟨by decide, C3_few_tokens_fail ⟨2025, 3, 10⟩ "hello" (by decide)⟩

/-! ## Capture shapes for the time groups (hour and minute) -/

theorem gs_pat1_hour {v : List Char} (h : GroupShape pat1 3 v) :
    v.length ≤ 2 ∧ ∀ c ∈ v, digitB c = true := by
  simp [pat1, tailRE, GroupShape, MatchShape] at h
  exact ⟨h.2.1, h.2.2⟩

theorem gs_pat1_minute {v : List Char} (h : GroupShape pat1 4 v) :
    v.length = 2 ∧ ∀ c ∈ v, digitB c = true := by
  simp [pat1, tailRE, GroupShape, MatchShape] at h
  exact ⟨by omega, h.2.2⟩

theorem gs_pat2_hour {v : List Char} (h : GroupShape pat2 3 v) :
    v.length ≤ 2 ∧ ∀ c ∈ v, digitB c = true := by
  simp [pat2, monthAltRE, tailRE, GroupShape, MatchShape] at h
  exact ⟨h.2.1, h.2.2⟩

theorem gs_pat2_minute {v : List Char} (h : GroupShape pat2 4 v) :
    v.length = 2 ∧ ∀ c ∈ v, digitB c = true := by
  simp [pat2, monthAltRE, tailRE, GroupShape, MatchShape] at h
  exact ⟨by omega, h.2.2⟩

theorem gs_pat3_hour {v : List Char} (h : GroupShape pat3 1 v) :
    v.length ≤ 2 ∧ ∀ c ∈ v, digitB c = true := by
  simp [pat3, tailRE, GroupShape, MatchShape] at h
  exact ⟨h.2.1, h.2.2⟩

theorem gs_pat3_minute {v : List Char} (h : GroupShape pat3 2 v) :
    v.length = 2 ∧ ∀ c ∈ v, digitB c = true := by
  simp [pat3, tailRE, GroupShape, MatchShape] at h
  exact ⟨by omega, h.2.2⟩

theorem gs_pat4_hour {v : List Char} (h : GroupShape pat4 1 v) :
    v.length ≤ 2 ∧ ∀ c ∈ v, digitB c = true := by
  simp [pat4, tailRE, GroupShape, MatchShape] at h
  exact ⟨h.2.1, h.2.2⟩

theorem gs_pat4_minute {v : List Char} (h : GroupShape pat4 2 v) :
    v.length = 2 ∧ ∀ c ∈ v, digitB c = true := by
  simp [pat4, tailRE, GroupShape, MatchShape] at h
  exact ⟨by omega, h.2.2⟩

theorem gs_pat5_hour {v : List Char} (h : GroupShape pat5 2 v) :
    v.length ≤ 2 ∧ ∀ c ∈ v, digitB c = true := by
  simp [pat5, weekdayAltRE, tailRE, GroupShape, MatchShape] at h
  exact ⟨h.2.1, h.2.2⟩

theorem gs_pat5_minute {v : List Char} (h : GroupShape pat5 3 v) :
    v.length = 2 ∧ ∀ c ∈ v, digitB c = true := by
  simp [pat5, weekdayAltRE, tailRE, GroupShape, MatchShape] at h
  exact ⟨by omega, h.2.2⟩

theorem digitsToNat_lt_100 {v : List Char} (h1 : v.length ≤ 2)
    (hall : ∀ c ∈ v, digitB c = true) : digitsToNat v < 100 := by
  match v with
  | [] => simp [digitsToNat]
  | [a] =>
    have ha := hall a (by simp)
    simp only [digitB, Bool.and_eq_true, decide_eq_true_eq] at ha
    simp only [digitsToNat, List.foldl]
    omega
  | [a, b] =>
    have ha := hall a (by simp)
    have hb := hall b (by simp)
    simp only [digitB, Bool.and_eq_true, decide_eq_true_eq] at ha hb
    simp only [digitsToNat, List.foldl]
    omega
  | _ :: _ :: _ :: _ =>
    simp only [List.length_cons] at h1
    omega

/-- The rendered time of every successful parse is a two-digit-or-longer
hour below 100 after meridiem adjustment, a colon, and a two-digit
minute field. -/
theorem fmtTime_shape (minuteS ampm : Option (List Char)) {hourS : List Char}
    (hh : hourS.length ≤ 2) (hd : ∀ c ∈ hourS, digitB c = true)
    (hm : ∀ v, minuteS = some v → v.length = 2 ∧ ∀ c ∈ v, digitB c = true) :
    ∃ (n : Nat) (mm : List Char), n < 100 ∧ mm.length = 2 ∧
      (∀ c ∈ mm, digitB c = true) ∧
      fmtTime hourS minuteS ampm = String.mk (pad2 n) ++ ":" ++ String.mk mm := by
  have hlt : digitsToNat hourS < 100 := digitsToNat_lt_100 hh hd
  refine ⟨if ampm = some ['p', 'm'] && digitsToNat hourS < 12 then digitsToNat hourS + 12
      else if ampm = some ['a', 'm'] && digitsToNat hourS = 12 then 0
      else digitsToNat hourS,
    minuteS.getD ['0', '0'], ?_, ?_, ?_, rfl⟩
  · split
    · next hc =>
      simp only [Bool.and_eq_true, decide_eq_true_eq] at hc
      omega
    · split
      · omega
      · omega
  · cases minuteS with
    | none => decide
    | some v => exact (hm v rfl).1
  · cases minuteS with
    | none =>
      intro c hc
      simp only [Option.getD_none, List.mem_cons, List.mem_singleton,
        List.not_mem_nil, or_false] at hc
      rcases hc with rfl | rfl
      · decide
      · decide
    | some v => exact (hm v rfl).2

theorem fullDateResult_time {now : Date} {cp : Caps} {r : BookingData}
    (h : fullDateResult now cp = some r)
    (hhour : ∀ x, getCap 3 cp = some x → x.length ≤ 2 ∧ ∀ c ∈ x, digitB c = true)
    (hmin : ∀ x, getCap 4 cp = some x → x.length = 2 ∧ ∀ c ∈ x, digitB c = true) :
    ∃ (n : Nat) (mm : List Char), n < 100 ∧ mm.length = 2 ∧
      (∀ c ∈ mm, digitB c = true) ∧
      r.time = String.mk (pad2 n) ++ ":" ++ String.mk mm := by
  unfold fullDateResult at h
  cases h1 : getCap 1 cp with
  | none => simp only [h1] at h; exact Option.noConfusion h
  | some day =>
    simp only [h1] at h
    cases h2 : getCap 2 cp with
    | none => simp only [h2] at h; exact Option.noConfusion h
    | some month =>
      simp only [h2] at h
      cases h3 : getCap 3 cp with
      | none => simp only [h3] at h; exact Option.noConfusion h
      | some hour =>
        simp only [h3] at h
        cases h6 : getCap 6 cp with
        | none => simp only [h6] at h; exact Option.noConfusion h
        | some name =>
          simp only [h6, Option.some_inj] at h
          obtain ⟨hh, hd⟩ := hhour hour h3
          obtain ⟨n, mm, hn, hmm, hmd, hrw⟩ :=
            fmtTime_shape (getCap 4 cp) (getCap 5 cp) hh hd
              (fun v hv => hmin v hv)
          refine ⟨n, mm, hn, hmm, hmd, ?_⟩
          rw [← hrw, ← h]

theorem relDateResult_time {t : List Char} {now : Date} {cp : Caps} {r : BookingData}
    (h : relDateResult t now cp = some r)
    (hhour : ∀ x, getCap 1 cp = some x → x.length ≤ 2 ∧ ∀ c ∈ x, digitB c = true)
    (hmin : ∀ x, getCap 2 cp = some x → x.length = 2 ∧ ∀ c ∈ x, digitB c = true) :
    ∃ (n : Nat) (mm : List Char), n < 100 ∧ mm.length = 2 ∧
      (∀ c ∈ mm, digitB c = true) ∧
      r.time = String.mk (pad2 n) ++ ":" ++ String.mk mm := by
  unfold relDateResult at h
  cases h1 : getCap 1 cp with
  | none => simp only [h1] at h; exact Option.noConfusion h
  | some hour =>
    simp only [h1] at h
    cases h4 : getCap 4 cp with
    | none => simp only [h4] at h; exact Option.noConfusion h
    | some name =>
      simp only [h4, Option.some_inj] at h
      obtain ⟨hh, hd⟩ := hhour hour h1
      obtain ⟨n, mm, hn, hmm, hmd, hrw⟩ :=
        fmtTime_shape (getCap 2 cp) (getCap 3 cp) hh hd
          (fun v hv => hmin v hv)
      refine ⟨n, mm, hn, hmm, hmd, ?_⟩
      rw [← hrw, ← h]

theorem weekdayResult_time {now : Date} {cp : Caps} {r : BookingData}
    (h : weekdayResult now cp = some r)
    (hhour : ∀ x, getCap 2 cp = some x → x.length ≤ 2 ∧ ∀ c ∈ x, digitB c = true)
    (hmin : ∀ x, getCap 3 cp = some x → x.length = 2 ∧ ∀ c ∈ x, digitB c = true) :
    ∃ (n : Nat) (mm : List Char), n < 100 ∧ mm.length = 2 ∧
      (∀ c ∈ mm, digitB c = true) ∧
      r.time = String.mk (pad2 n) ++ ":" ++ String.mk mm := by
  unfold weekdayResult at h
  cases h1 : getCap 1 cp with
  | none => simp only [h1] at h; exact Option.noConfusion h
  | some wday =>
    simp only [h1] at h
    cases h2 : getCap 2 cp with
    | none => simp only [h2] at h; exact Option.noConfusion h
    | some hour =>
      simp only [h2] at h
      cases h5 : getCap 5 cp with
      | none => simp only [h5] at h; exact Option.noConfusion h
      | some name =>
        simp only [h5, Option.some_inj] at h
        obtain ⟨hh, hd⟩ := hhour hour h2
        obtain ⟨n, mm, hn, hmm, hmd, hrw⟩ :=
          fmtTime_shape (getCap 3 cp) (getCap 4 cp) hh hd
            (fun v hv => hmin v hv)
        refine ⟨n, mm, hn, hmm, hmd, ?_⟩
        rw [← hrw, ← h]

theorem parse_booking_cases {now : Date} {text : String} {r : BookingData}
    (h : parse_booking now text = some r) :
    (∃ cp, reSearch pat1 (stripL (toLowerL text.data)) = some cp ∧
      fullDateResult now cp = some r) ∨
    (∃ cp, reSearch pat2 (stripL (toLowerL text.data)) = some cp ∧
      fullDateResult now cp = some r) ∨
    (∃ cp, reSearch pat3 (stripL (toLowerL text.data)) = some cp ∧
      relDateResult (stripL (toLowerL text.data)) now cp = some r) ∨
    (∃ cp, reSearch pat4 (stripL (toLowerL text.data)) = some cp ∧
      relDateResult (stripL (toLowerL text.data)) now cp = some r) ∨
    (∃ cp, reSearch pat5 (stripL (toLowerL text.data)) = some cp ∧
      weekdayResult now cp = some r) := by
  unfold parse_booking at h
  cases e1 : reSearch pat1 (stripL (toLowerL text.data)) <;> simp only [e1] at h
  case some cp => exact Or.inl ⟨cp, rfl, h⟩
  cases e2 : reSearch pat2 (stripL (toLowerL text.data)) <;> simp only [e2] at h
  case some cp => exact Or.inr (Or.inl ⟨cp, rfl, h⟩)
  cases e3 : reSearch pat3 (stripL (toLowerL text.data)) <;> simp only [e3] at h
  case some cp => exact Or.inr (Or.inr (Or.inl ⟨cp, rfl, h⟩))
  cases e4 : reSearch pat4 (stripL (toLowerL text.data)) <;> simp only [e4] at h
  case some cp => exact Or.inr (Or.inr (Or.inr (Or.inl ⟨cp, rfl, h⟩)))
  cases e5 : reSearch pat5 (stripL (toLowerL text.data)) <;> simp only [e5] at h
  case some cp => exact Or.inr (Or.inr (Or.inr (Or.inr ⟨cp, rfl, h⟩)))
  cases h

/-- C1: parsing the code's own advertised example `15/03 15:30 John Doe`
yields a date whose month component is `01`, not the `03` required by the
claim (and by the code's own prompt text): `_month_to_number` maps every
numeric month string to its default `'01'`. -/
theorem C1_numeric_month_collapses :
    parse_booking ⟨2025, 3, 10⟩ "15/03 15:30 John Doe" =
      some { date := "15-01-2025", time := "15:30", name := "John Doe" } ∧
    monthToNumber ['0', '3'] = "01" ∧ monthToNumber ['0', '3'] ≠ "03" := by
  refine ⟨by decide, by decide, by decide⟩

/-- C2 (counterexample): the claim says `'12 feb 5pm rahul'` is stored
with time `5:00PM` (original meridiem, uppercase suffix); the code
converts to 24-hour form and stores `17:00`. -/
theorem C2_counterexample :
    (parse_booking ⟨2025, 3, 10⟩ "12 feb 5pm rahul").map BookingData.time = some "17:00" ∧
      some "17:00" ≠ some ("5:00PM" : String) := by
  refine ⟨by decide, by decide⟩

/-- C2: (amended) every successfully parsed booking stores its time in
24-hour form `HH:MM` — a meridiem-adjusted hour below 100 rendered
zero-padded, a colon, and a two-digit minute field (`00` when omitted) —
with no AM/PM suffix. -/
theorem C2_time_24h (now : Date) (text : String) (r : BookingData)
    (h : parse_booking now text = some r) :
    ∃ (n : Nat) (mm : List Char), n < 100 ∧ mm.length = 2 ∧
      (∀ c ∈ mm, digitB c = true) ∧
      r.time = String.mk (pad2 n) ++ ":" ++ String.mk mm := by
  rcases parse_booking_cases h with ⟨cp, hs, hb⟩ | ⟨cp, hs, hb⟩ | ⟨cp, hs, hb⟩ |
    ⟨cp, hs, hb⟩ | ⟨cp, hs, hb⟩
  · obtain ⟨-, hcaps⟩ := reSearch_sound pat1 _ cp hs
    exact fullDateResult_time hb (fun x hx => gs_pat1_hour (hcaps 3 x hx))
      (fun x hx => gs_pat1_minute (hcaps 4 x hx))
  · obtain ⟨-, hcaps⟩ := reSearch_sound pat2 _ cp hs
    exact fullDateResult_time hb (fun x hx => gs_pat2_hour (hcaps 3 x hx))
      (fun x hx => gs_pat2_minute (hcaps 4 x hx))
  · obtain ⟨-, hcaps⟩ := reSearch_sound pat3 _ cp hs
    exact relDateResult_time hb (fun x hx => gs_pat3_hour (hcaps 1 x hx))
      (fun x hx => gs_pat3_minute (hcaps 2 x hx))
  · obtain ⟨-, hcaps⟩ := reSearch_sound pat4 _ cp hs
    exact relDateResult_time hb (fun x hx => gs_pat4_hour (hcaps 1 x hx))
      (fun x hx => gs_pat4_minute (hcaps 2 x hx))
  · obtain ⟨-, hcaps⟩ := reSearch_sound pat5 _ cp hs
    exact weekdayResult_time hb (fun x hx => gs_pat5_hour (hcaps 2 x hx))
      (fun x hx => gs_pat5_minute (hcaps 3 x hx))

/-- C2 (witness): the amended statement instantiated on
`'12 feb 5pm rahul'`, via `C2_time_24h`. -/
theorem C2_time_24h_witness :
    ∃ (n : Nat) (mm : List Char), n < 100 ∧ mm.length = 2 ∧
      (∀ c ∈ mm, digitB c = true) ∧
      (BookingData.mk "12-02-2025" "17:00" "Rahul").time =
        String.mk (pad2 n) ++ ":" ++ String.mk mm :=
  C2_time_24h ⟨2025, 3, 10⟩ "12 feb 5pm rahul" ⟨"12-02-2025", "17:00", "Rahul"⟩ (by decide)


/-- C4: an inactive tenant, or one whose usage counter has reached its
chat limit, is answered with the fixed inactive/limit reply for every
message, and the session (conversation state, bookings, commits) is left
completely untouched — the state machine never runs. -/
theorem C4_usage_gate (phone message : String) (now : Date) (s : Session)
    (h : s.biz.is_active = false ∨ s.biz.chat_limit ≤ s.biz.chat_used) :
    webhook_reply phone message now s =
      ((if s.biz.is_active then limitMsg s.biz else inactiveMsg), s) := by
  unfold webhook_reply
  rcases h with h | h
  · simp [h]
  · cases ha : s.biz.is_active with
    | false => simp [ha]
    | true => simp [ha, ge_iff_le, h]

/-- C4 (witness): a tenant exactly at its limit gets the limit reply and
an unchanged session, via `C4_usage_gate`. -/
theorem C4_usage_gate_witness :
    webhook_reply "919000000001" "1" ⟨2025, 3, 10⟩
        { biz := { bizGym with chat_used := 1000 }, dbBookings := [],
          pendingAdds := [], commits := [] } =
      (limitMsg { bizGym with chat_used := 1000 },
        { biz := { bizGym with chat_used := 1000 }, dbBookings := [],
          pendingAdds := [], commits := [] }) :=
  C4_usage_gate "919000000001" "1" ⟨2025, 3, 10⟩ _ (Or.inr (by decide))

/-- C5 (counterexample): the greeting `hi` sent from the `start` state is
not a menu command — the code replies with the invalid-option message,
not the menu, and the state stays `start` instead of becoming `menu`. -/
theorem C5_counterexample :
    process_message "919000000001" "hi" ⟨2025, 3, 10⟩
        { biz := { bizGym with flow_state := some "start" }, dbBookings := [],
          pendingAdds := [], commits := [] } =
      (invalidOptionMsg,
        { biz := { bizGym with flow_state := some "start" }, dbBookings := [],
          pendingAdds := [], commits := [] }) ∧
    invalidOptionMsg ≠ get_industry_menu { bizGym with flow_state := some "start" } ∧
    ({ bizGym with flow_state := some "start" } : Business).flow_state ≠ some "menu" := by
  refine ⟨by decide, by decide, by decide⟩

/-- C5: (amended) each of the four commands `reset`, `restart`, `help`,
`menu` (after stripping and lowercasing) moves every state to `menu` and
replies with the tenant's industry menu; repeating the command gives the
same reply and the same `menu` state (idempotence).  Greeting words have
no such effect (see `C5_counterexample`). -/
theorem C5_reset_commands (phone msg : String) (now : Date) (s : Session)
    (h : toLowerStr (stripS msg) ∈ resetWords) :
    process_message phone msg now s =
      (get_industry_menu s.biz, (s.setState "menu").commitB) ∧
    ((s.setState "menu").commitB).biz.flow_state = some "menu" ∧
    (process_message phone msg now ((s.setState "menu").commitB)).1 =
      get_industry_menu s.biz ∧
    (process_message phone msg now ((s.setState "menu").commitB)).2.biz.flow_state =
      some "menu" := by
  refine ⟨?_, rfl, ?_, ?_⟩
  · unfold process_message
    simp [h]
    rfl
  · unfold process_message
    simp [h]
    rfl
  · unfold process_message
    simp [h]
    rfl

/-- C5 (witness): `help` from the `booking` state, via `C5_reset_commands`. -/
theorem C5_reset_commands_witness :
    process_message "919000000001" "Help" ⟨2025, 3, 10⟩
        { biz := { bizGym with flow_state := some "booking" }, dbBookings := [],
          pendingAdds := [], commits := [] } =
      (get_industry_menu { bizGym with flow_state := some "booking" },
        (({ biz := { bizGym with flow_state := some "booking" }, dbBookings := [],
            pendingAdds := [], commits := [] } : Session).setState "menu").commitB) :=
  (C5_reset_commands "919000000001" "Help" ⟨2025, 3, 10⟩ _ (by decide)).1

/-- C7: `cancel`/`back`/`exit` from the `booking` state moves the state
to `menu`, creates no booking, leaves the usage counter and every other
business field unchanged, and replies with the cancellation notice
followed by the menu text. -/
theorem C7_cancel (phone msg : String) (now : Date) (s : Session)
    (hstate : s.biz.flow_state = some "booking")
    (hpend : s.pendingAdds = [])
    (hc : toLowerStr (stripS msg) ∈ cancelWords) :
    process_message phone msg now s =
      ("❌ Booking cancelled.\n\n" ++ get_industry_menu s.biz,
        (s.setState "menu").commitB) ∧
    ((s.setState "menu").commitB).biz = { s.biz with flow_state := some "menu" } ∧
    ((s.setState "menu").commitB).dbBookings = s.dbBookings := by
  have hnr : toLowerStr (stripS msg) ∉ resetWords := by
    simp only [cancelWords, List.mem_cons, List.not_mem_nil, or_false] at hc
    rcases hc with h | h | h <;> simp [resetWords, h]
  refine ⟨?_, rfl, by simp [Session.commitB, Session.setState, hpend]⟩
  unfold process_message handle_booking
  simp [hnr, hstate, hc]
  rfl

/-- C7 (witness): `cancel` in the `booking` state, via `C7_cancel`. -/
theorem C7_cancel_witness :
    process_message "919000000001" "cancel" ⟨2025, 3, 10⟩
        { biz := { bizGym with flow_state := some "booking" }, dbBookings := [],
          pendingAdds := [], commits := [] } =
      ("❌ Booking cancelled.\n\n" ++
          get_industry_menu { bizGym with flow_state := some "booking" },
        (({ biz := { bizGym with flow_state := some "booking" }, dbBookings := [],
            pendingAdds := [], commits := [] } : Session).setState "menu").commitB) :=
  (C7_cancel "919000000001" "cancel" ⟨2025, 3, 10⟩ _ rfl rfl (by decide)).1

/-- C8: in the `booking` state, a message that parses to a slot already
taken by a pending/confirmed booking of the same tenant is rejected: the
reply asks for another time and the session — state, bookings, counter —
is completely unchanged. -/
theorem C8_double_booking (phone msg : String) (now : Date) (s : Session) (bd : BookingData)
    (hstate : s.biz.flow_state = some "booking")
    (hnr : toLowerStr (stripS msg) ∉ resetWords)
    (hnc : toLowerStr (stripS msg) ∉ cancelWords)
    (hp : parse_booking now (stripS msg) = some bd)
    (hdup : dupCheck s bd = true) :
    process_message phone msg now s = (alreadyBookedMsg bd, s) := by
  unfold process_message handle_booking
  simp [hnr, hstate, hnc, hp, hdup]


/-- C8 (witness): with `15-01-2025 15:30` already pending, the text
`15/03 15:30 john doe` (which parses to that same slot) is rejected and
the session is unchanged, via `C8_double_booking`. -/
theorem C8_double_booking_witness :
    process_message "919000000001" "15/03 15:30 john doe" ⟨2025, 3, 10⟩
        { biz := { bizGym with flow_state := some "booking" },
          dbBookings := [bookingTaken], pendingAdds := [], commits := [] } =
      (alreadyBookedMsg ⟨"15-01-2025", "15:30", "John Doe"⟩,
        { biz := { bizGym with flow_state := some "booking" },
          dbBookings := [bookingTaken], pendingAdds := [], commits := [] }) :=
  C8_double_booking "919000000001" "15/03 15:30 john doe" ⟨2025, 3, 10⟩ _
    ⟨"15-01-2025", "15:30", "John Doe"⟩ rfl (by decide) (by decide) (by decide) (by decide)

/-- C6 (counterexample): in `booking` state with the target slot already
pending, `15/03 15:30 john doe` parses successfully yet no Booking row is
appended, the counter is unchanged and the state stays `booking` —
refuting the claim that every successful parse in `booking` state
creates a record. -/
theorem C6_counterexample :
    parse_booking ⟨2025, 3, 10⟩ (stripS "15/03 15:30 john doe") ≠ none ∧
    (process_message "919000000001" "15/03 15:30 john doe" ⟨2025, 3, 10⟩
        { biz := { bizGym with flow_state := some "booking" },
          dbBookings := [bookingTaken], pendingAdds := [], commits := [] }).2.dbBookings =
      [bookingTaken] ∧
    (process_message "919000000001" "15/03 15:30 john doe" ⟨2025, 3, 10⟩
        { biz := { bizGym with flow_state := some "booking" },
          dbBookings := [bookingTaken], pendingAdds := [], commits := [] }).2.biz.chat_used =
      bizGym.chat_used ∧
    (process_message "919000000001" "15/03 15:30 john doe" ⟨2025, 3, 10⟩
        { biz := { bizGym with flow_state := some "booking" },
          dbBookings := [bookingTaken], pendingAdds := [], commits := [] }).2.biz.flow_state =
      some "booking" := by
  refine ⟨by decide, by decide, by decide, by decide⟩

/-- C6: (amended) in `booking` state, when the (stripped) message is not
a reset or cancel word, parses successfully, and no pending/confirmed
booking of the same tenant occupies the same slot, exactly one pending
Booking row is appended, the usage counter is incremented by one, the
state becomes `menu`, and all of it lands in one commit snapshot;
conversely, the booking table changes only under exactly these
conditions. -/
theorem C6_booking_creation (phone msg : String) (now : Date) (s : Session)
    (hpend : s.pendingAdds = [])
    (hstate : s.biz.flow_state = some "booking") :
    (∀ bd : BookingData,
      toLowerStr (stripS msg) ∉ resetWords →
      toLowerStr (stripS msg) ∉ cancelWords →
      parse_booking now (stripS msg) = some bd →
      dupCheck s bd = false →
      process_message phone msg now s =
        (confirmMsg bd,
          { biz := { s.biz with
              flow_state := some "menu",
              chat_used := s.biz.chat_used + 1 },
            dbBookings := s.dbBookings ++
              [{ business_id := s.biz.id, name := bd.name, phone := phone,
                 booking_date := bd.date, booking_time := bd.time, status := "pending" }],
            pendingAdds := [],
            commits := s.commits ++
              [({ s.biz with
                  flow_state := some "menu",
                  chat_used := s.biz.chat_used + 1 },
                s.dbBookings ++
                  [{ business_id := s.biz.id, name := bd.name, phone := phone,
                     booking_date := bd.date, booking_time := bd.time,
                     status := "pending" }])] })) ∧
    ((process_message phone msg now s).2.dbBookings ≠ s.dbBookings →
      toLowerStr (stripS msg) ∉ resetWords ∧ toLowerStr (stripS msg) ∉ cancelWords ∧
      ∃ bd, parse_booking now (stripS msg) = some bd ∧ dupCheck s bd = false) := by
  constructor
  · intro bd hnr hnc hp hdup
    unfold process_message handle_booking
    simp [hnr, hstate, hnc, hp, hdup, Session.addB, Session.setState,
      Session.bumpChat, Session.commitB, hpend]
  · intro hne
    by_cases hnr : toLowerStr (stripS msg) ∈ resetWords
    · exfalso
      apply hne
      unfold process_message
      simp [hnr, Session.commitB, Session.setState, hpend]
    · by_cases hnc : toLowerStr (stripS msg) ∈ cancelWords
      · exfalso
        apply hne
        unfold process_message handle_booking
        simp [hnr, hstate, hnc, Session.commitB, Session.setState, hpend]
      · cases hp : parse_booking now (stripS msg) with
        | none =>
          exfalso
          apply hne
          unfold process_message handle_booking
          simp [hnr, hstate, hnc, hp]
        | some bd =>
          cases hdup : dupCheck s bd with
          | true =>
            exfalso
            apply hne
            unfold process_message handle_booking
            simp [hnr, hstate, hnc, hp, hdup]
          | false => exact ⟨hnr, hnc, ⟨bd, rfl, hdup⟩⟩

/-- C6 (witness): `12 feb 5pm rahul` in the `booking` state creates one
pending row, bumps the counter and moves to `menu` in one commit, via
`C6_booking_creation`. -/
theorem C6_booking_creation_witness :
    process_message "919000000001" "12 feb 5pm rahul" ⟨2025, 3, 10⟩
        { biz := { bizGym with flow_state := some "booking" }, dbBookings := [],
          pendingAdds := [], commits := [] } =
      (confirmMsg ⟨"12-02-2025", "17:00", "Rahul"⟩,
        { biz := { bizGym with flow_state := some "menu", chat_used := 4 },
          dbBookings :=
            [{ business_id := 7, name := "Rahul", phone := "919000000001",
               booking_date := "12-02-2025", booking_time := "17:00", status := "pending" }],
          pendingAdds := [],
          commits :=
            [({ bizGym with flow_state := some "menu", chat_used := 4 },
              [{ business_id := 7, name := "Rahul", phone := "919000000001",
                 booking_date := "12-02-2025", booking_time := "17:00",
                 status := "pending" }])] }) :=
  (C6_booking_creation "919000000001" "12 feb 5pm rahul" ⟨2025, 3, 10⟩ _ (by rfl) (by rfl)).1
    ⟨"12-02-2025", "17:00", "Rahul"⟩ (by decide) (by decide) (by decide) (by decide)

/-- C9 (counterexample): two invocations with identical conversation
state (`booking`), identical message and identical tenant, run under two
different clock readings, produce different replies — the reply embeds
the current year, so the clock is a hidden input and the claimed
determinism over (state, message, industry) alone fails. -/
theorem C9_counterexample :
    (process_message "919000000001" "15/03 15:30 john doe" ⟨2024, 3, 10⟩
        { biz := { bizGym with flow_state := some "booking" }, dbBookings := [],
          pendingAdds := [], commits := [] }).1 ≠
    (process_message "919000000001" "15/03 15:30 john doe" ⟨2025, 3, 10⟩
        { biz := { bizGym with flow_state := some "booking" }, dbBookings := [],
          pendingAdds := [], commits := [] }).1 := by
  decide

theorem handle_booking_phone (msg p1 p2 : String) (now : Date) (s : Session) :
    (handle_booking msg p1 now s).1 = (handle_booking msg p2 now s).1 ∧
    (handle_booking msg p1 now s).2.biz = (handle_booking msg p2 now s).2.biz := by
  unfold handle_booking
  split_ifs with hc
  · exact ⟨rfl, rfl⟩
  · cases parse_booking now msg with
    | none => exact ⟨rfl, rfl⟩
    | some bd =>
      by_cases hdup : dupCheck s bd = true
      · simp [hdup]
      · simp [hdup, Session.addB, Session.setState, Session.bumpChat, Session.commitB]

/-- C9: (amended) the reply and the tenant's resulting state are a
deterministic function of the conversation state, the message, the
tenant record, the booking table and the current clock — in particular
they do not depend on the customer's phone number, which only enters the
stored booking row. -/
theorem C9_phone_independent (p1 p2 msg : String) (now : Date) (s : Session) :
    (process_message p1 msg now s).1 = (process_message p2 msg now s).1 ∧
    (process_message p1 msg now s).2.biz = (process_message p2 msg now s).2.biz := by
  simp only [process_message]
  split_ifs
  · exact ⟨rfl, rfl⟩
  · exact ⟨rfl, rfl⟩
  · exact handle_booking_phone (stripS msg) p1 p2 now s
  · exact ⟨rfl, rfl⟩

theorem handle_menu_state (message : String) (s : Session) :
    (handle_menu message s).2.biz.flow_state = s.biz.flow_state ∨
    (handle_menu message s).2.biz.flow_state = some "booking" ∨
    (handle_menu message s).2.biz.flow_state = some "start" := by
  unfold handle_menu
  split_ifs <;> simp [Session.setState, Session.commitB]

theorem handle_booking_state (message phone : String) (now : Date) (s : Session) :
    (handle_booking message phone now s).2.biz.flow_state = s.biz.flow_state ∨
    (handle_booking message phone now s).2.biz.flow_state = some "menu" := by
  unfold handle_booking
  split_ifs with hc
  · simp [Session.setState, Session.commitB]
  · cases parse_booking now message with
    | none => left; rfl
    | some bd =>
      by_cases hdup : dupCheck s bd = true
      · simp [hdup]
      · simp [hdup, Session.addB, Session.setState, Session.bumpChat, Session.commitB]

/-- C10 (counterexample): a tenant whose stored state is null receives an
unrecognised option in what the code treats as the `start` state; the
call leaves the stored state null — outside {start, menu, booking} — and
replies with the invalid-option message, not the menu. -/
theorem C10_counterexample :
    (process_message "919000000001" "9" ⟨2025, 3, 10⟩
        { biz := { bizGym with flow_state := none }, dbBookings := [],
          pendingAdds := [], commits := [] }).2.biz.flow_state = none ∧
    (process_message "919000000001" "9" ⟨2025, 3, 10⟩
        { biz := { bizGym with flow_state := none }, dbBookings := [],
          pendingAdds := [], commits := [] }).1 = invalidOptionMsg ∧
    invalidOptionMsg ≠ get_industry_menu { bizGym with flow_state := none } ∧
    (none : Option String) ≠ some "start" ∧ (none : Option String) ≠ some "menu" ∧
    (none : Option String) ≠ some "booking" := by
  refine ⟨by decide, by decide, by decide, by decide, by decide, by decide⟩

/-- C10: (amended) whenever the stored state is a non-empty string, the
state after any call is one of `start`, `menu`, `booking`; and a
non-empty stored state outside that set is reset to `menu` with the menu
text as reply.  (A null or empty stored state is treated as `start` and
can survive the call unchanged — see `C10_counterexample`.) -/
theorem C10_state_closure (phone msg : String) (now : Date) (s : Session) (st : String)
    (hstate : s.biz.flow_state = some st) (hne : st ≠ "") :
    ((process_message phone msg now s).2.biz.flow_state = some "start" ∨
     (process_message phone msg now s).2.biz.flow_state = some "menu" ∨
     (process_message phone msg now s).2.biz.flow_state = some "booking") ∧
    (st ≠ "start" → st ≠ "menu" → st ≠ "booking" →
      process_message phone msg now s =
        (get_industry_menu s.biz, (s.setState "menu").commitB)) := by
  constructor
  · by_cases hr : toLowerStr (stripS msg) ∈ resetWords
    · unfold process_message
      simp [hr, Session.setState, Session.commitB]
    · by_cases hsm : st = "start" ∨ st = "menu"
      · have hbr : (process_message phone msg now s).2.biz.flow_state =
            (handle_menu (stripS msg) s).2.biz.flow_state := by
          unfold process_message
          simp [hr, hstate, hne, hsm]
        rw [hbr]
        rcases handle_menu_state (stripS msg) s with h | h | h
        · rw [h, hstate]
          rcases hsm with rfl | rfl
          · exact Or.inl rfl
          · exact Or.inr (Or.inl rfl)
        · exact Or.inr (Or.inr h)
        · exact Or.inl h
      · by_cases hbk : st = "booking"
        · have hbr : (process_message phone msg now s).2.biz.flow_state =
              (handle_booking (stripS msg) phone now s).2.biz.flow_state := by
            unfold process_message
            simp [hr, hstate, hne, hsm, hbk]
          rw [hbr]
          rcases handle_booking_state (stripS msg) phone now s with h | h
          · rw [h, hstate, hbk]
            exact Or.inr (Or.inr rfl)
          · exact Or.inr (Or.inl h)
        · unfold process_message
          simp [hr, hstate, hne, hsm, hbk, Session.setState, Session.commitB]
  · intro h1 h2 h3
    unfold process_message
    by_cases hr : toLowerStr (stripS msg) ∈ resetWords
    · simp [hr]
      rfl
    · simp [hr, hstate, hne, h1, h2, h3]
      rfl

/-- C10 (witness): a tenant stuck in a stale state `paused` is reset to
`menu`, via `C10_state_closure`. -/
theorem C10_state_closure_witness :
    ((process_message "919000000001" "2" ⟨2025, 3, 10⟩
        { biz := { bizGym with flow_state := some "paused" }, dbBookings := [],
          pendingAdds := [], commits := [] }).2.biz.flow_state = some "start" ∨
     (process_message "919000000001" "2" ⟨2025, 3, 10⟩
        { biz := { bizGym with flow_state := some "paused" }, dbBookings := [],
          pendingAdds := [], commits := [] }).2.biz.flow_state = some "menu" ∨
     (process_message "919000000001" "2" ⟨2025, 3, 10⟩
        { biz := { bizGym with flow_state := some "paused" }, dbBookings := [],
          pendingAdds := [], commits := [] }).2.biz.flow_state = some "booking") ∧
    ("paused" ≠ "start" → "paused" ≠ "menu" → "paused" ≠ "booking" →
      process_message "919000000001" "2" ⟨2025, 3, 10⟩
          { biz := { bizGym with flow_state := some "paused" }, dbBookings := [],
            pendingAdds := [], commits := [] } =
        (get_industry_menu { bizGym with flow_state := some "paused" },
          (({ biz := { bizGym with flow_state := some "paused" }, dbBookings := [],
              pendingAdds := [], commits := [] } : Session).setState "menu").commitB)) :=
  C10_state_closure "919000000001" "2" ⟨2025, 3, 10⟩ _ "paused" (by rfl) (by decide)
